import Mathlib

/-!
Verification of the bempp-cl core: the lowest-order RWG degree-of-freedom
assignment (`bempp/api/space/rwg0_space.py`, `Rwg0FunctionSpace.__init__`)
and the sparse operator assembler (`bempp/core/sparse_assembler.py`).

The Python code is shallowly embedded: numpy arrays indexed by element and
local slot become functions `Nat → Fin 3 → _`, the `-1` sentinel of
`edge_dofs`/`dofmap` becomes `Option Nat`, the mutable loop becomes a fold
over the list of support elements, floating point values become `ℚ` (the
claims under study are about summation structure, index bookkeeping and
control flow, not rounding).
-/

namespace Bempp

/-- Mesh connectivity, as consumed by `Rwg0FunctionSpace.__init__`:
`grid.number_of_elements`, `grid.number_of_edges`,
`grid.element_edges[local_index, element_index]` and
`grid.edge_neighbors[edge_index]`. -/
structure Grid where
  numElements : Nat
  numEdges : Nat
  elementEdges : Nat → Fin 3 → Nat
  edgeNeighbors : Nat → List Nat

/-- Python `min` over a list of indices (used as `min(edge_neighbors)`). -/
def listMin : List Nat → Nat
  | [] => 0
  | a :: rest => rest.foldl min a

/-- The neighbor of `el` across `edge` that is also in the support, if any:
the `other` variable of the Python loop (`-1` becomes `none`). -/
def otherNeighbor (g : Grid) (support : Nat → Bool) (el edge : Nat) : Option Nat :=
  match g.edgeNeighbors edge with
  | [] => none
  | [_] => none
  | n0 :: n1 :: _ =>
      let o := if el = n0 then n1 else n0
      if support o then some o else none

/-- Outcome of one iteration of the inner (`local_index`) loop: the local
multiplier written, the `dofmap` entry, and the updated DOF counter and
per-edge DOF table. -/
structure SlotOut where
  m : Int
  dof : Option Nat
  count : Nat
  edgeDofs : Nat → Option Nat

/-- One iteration of the inner loop of `Rwg0FunctionSpace.__init__` for
element `el` and local slot `li`. -/
def processSlot (g : Grid) (support : Nat → Bool) (includeBoundaryDofs : Bool)
    (el : Nat) (li : Fin 3) (count : Nat) (edgeDofs : Nat → Option Nat) : SlotOut :=
  let edge := g.elementEdges el li
  match otherNeighbor g support el edge with
  | none =>
      if includeBoundaryDofs then
        { m := 1, dof := some count, count := count + 1, edgeDofs := edgeDofs }
      else
        { m := 0, dof := none, count := count, edgeDofs := edgeDofs }
  | some _ =>
      let mv : Int := if el = listMin (g.edgeNeighbors edge) then 1 else -1
      match edgeDofs edge with
      | some d => { m := mv, dof := some d, count := count, edgeDofs := edgeDofs }
      | none =>
          { m := mv, dof := some count, count := count + 1,
            edgeDofs := fun e => if e = edge then some count else edgeDofs e }

/-- State threaded through the outer (`element_index`) loop:
the running DOF counter, the `edge_dofs` table, the `local_multipliers` and
`local2global_map` arrays, and the `delete_from_support` list. -/
structure AState where
  count : Nat
  edgeDofs : Nat → Option Nat
  mult : Nat → Fin 3 → Int
  l2g : Nat → Fin 3 → Nat
  deleted : List Nat

/-- Overwrite one row of a per-element, per-slot array. -/
def setRow {α : Type} (f : Nat → Fin 3 → α) (el : Nat) (row : Fin 3 → α) :
    Nat → Fin 3 → α :=
  fun e li => if e = el then row li else f e li

/-- Result of the slot-0 iteration for element `el`, from counter `c` and
edge table `ed`. -/
def res0 (g : Grid) (support : Nat → Bool) (ibd : Bool) (el : Nat)
    (c : Nat) (ed : Nat → Option Nat) : SlotOut :=
  processSlot g support ibd el 0 c ed

/-- Result of the slot-1 iteration, after slot 0. -/
def res1 (g : Grid) (support : Nat → Bool) (ibd : Bool) (el : Nat)
    (c : Nat) (ed : Nat → Option Nat) : SlotOut :=
  processSlot g support ibd el 1 (res0 g support ibd el c ed).count
    (res0 g support ibd el c ed).edgeDofs

/-- Result of the slot-2 iteration, after slots 0 and 1. -/
def res2 (g : Grid) (support : Nat → Bool) (ibd : Bool) (el : Nat)
    (c : Nat) (ed : Nat → Option Nat) : SlotOut :=
  processSlot g support ibd el 2 (res1 g support ibd el c ed).count
    (res1 g support ibd el c ed).edgeDofs

/-- The three local multipliers produced for element `el`. -/
def elMultRow (g : Grid) (support : Nat → Bool) (ibd : Bool) (el : Nat)
    (c : Nat) (ed : Nat → Option Nat) : Fin 3 → Int :=
  fun li =>
    if li = 0 then (res0 g support ibd el c ed).m
    else if li = 1 then (res1 g support ibd el c ed).m
    else (res2 g support ibd el c ed).m

/-- The `dofmap` produced for element `el` (entries `-1` become `none`). -/
def elDofmap (g : Grid) (support : Nat → Bool) (ibd : Bool) (el : Nat)
    (c : Nat) (ed : Nat → Option Nat) : Fin 3 → Option Nat :=
  fun li =>
    if li = 0 then (res0 g support ibd el c ed).dof
    else if li = 1 then (res1 g support ibd el c ed).dof
    else (res2 g support ibd el c ed).dof

/-- The Python check `np.all(dofmap == -1)`: no DOF was assigned to the
element, so it must be deleted from the support. -/
def elDeleted (g : Grid) (support : Nat → Bool) (ibd : Bool) (el : Nat)
    (c : Nat) (ed : Nat → Option Nat) : Bool :=
  (elDofmap g support ibd el c ed 0).isNone &&
    (elDofmap g support ibd el c ed 1).isNone &&
    (elDofmap g support ibd el c ed 2).isNone

/-- `np.min(np.flatnonzero(local_multipliers[element_index] != 0))`: the
lowest slot with a nonzero multiplier (only used when one exists; the
default 2 in the all-zero case is never reached from `processElement`). -/
def firstNonzeroIdx (row : Fin 3 → Int) : Fin 3 :=
  if row 0 ≠ 0 then 0 else if row 1 ≠ 0 then 1 else 2

/-- `dofmap[arg_zeros] = dofmap[first_nonzero]`: every zero-multiplier slot
is aliased to the DOF of the lowest nonzero-multiplier slot. -/
def elFilled (g : Grid) (support : Nat → Bool) (ibd : Bool) (el : Nat)
    (c : Nat) (ed : Nat → Option Nat) : Fin 3 → Option Nat :=
  fun li =>
    if elMultRow g support ibd el c ed li = 0 then
      elDofmap g support ibd el c ed (firstNonzeroIdx (elMultRow g support ibd el c ed))
    else elDofmap g support ibd el c ed li

/-- The value an `int32` `-1` would show as a `uint32` entry of
`local2global_map`; the fill step guarantees it is never produced. -/
def sentinel : Nat := 4294967295

/-- One iteration of the outer loop of `Rwg0FunctionSpace.__init__`:
process the three slots of `el`, then either mark the element for deletion
(zeroing its records) or store its multiplier row and filled `dofmap`. -/
def processElement (g : Grid) (support : Nat → Bool) (ibd : Bool)
    (s : AState) (el : Nat) : AState :=
  if elDeleted g support ibd el s.count s.edgeDofs then
    { count := (res2 g support ibd el s.count s.edgeDofs).count
      edgeDofs := (res2 g support ibd el s.count s.edgeDofs).edgeDofs
      mult := setRow s.mult el (fun _ => 0)
      l2g := setRow s.l2g el (fun _ => 0)
      deleted := s.deleted ++ [el] }
  else
    { count := (res2 g support ibd el s.count s.edgeDofs).count
      edgeDofs := (res2 g support ibd el s.count s.edgeDofs).edgeDofs
      mult := setRow s.mult el (elMultRow g support ibd el s.count s.edgeDofs)
      l2g := setRow s.l2g el
        (fun li => (elFilled g support ibd el s.count s.edgeDofs li).getD sentinel)
      deleted := s.deleted }

/-- `np.flatnonzero(support)`: the support elements in increasing order. -/
def elementsInSupport (g : Grid) (support : Nat → Bool) : List Nat :=
  (List.range g.numElements).filter (fun e => support e)

/-- Initial state: counter 0, no edge DOF allocated, arrays zeroed. -/
def initState : AState :=
  { count := 0, edgeDofs := fun _ => none, mult := fun _ _ => 0,
    l2g := fun _ _ => 0, deleted := [] }

/-- The whole DOF-assignment loop of `Rwg0FunctionSpace.__init__`. -/
def runAssign (g : Grid) (support : Nat → Bool) (ibd : Bool) : AState :=
  (elementsInSupport g support).foldl (processElement g support ibd) initState

/-- `global_dof_count = count`. -/
def globalDofCount (g : Grid) (support : Nat → Bool) (ibd : Bool) : Nat :=
  (runAssign g support ibd).count

/-- The support after `support[index] = False` for every marked element. -/
def finalSupport (g : Grid) (support : Nat → Bool) (ibd : Bool) : Nat → Bool :=
  fun e => if e ∈ (runAssign g support ibd).deleted then false else support e

/-- `support_size = np.count_nonzero(support)` after the deletions. -/
def supportSize (g : Grid) (support : Nat → Bool) (ibd : Bool) : Nat :=
  ((List.range g.numElements).filter (finalSupport g support ibd)).length

/-- The data the constructed space carries (`_SpaceData` fields relevant
here). -/
structure SpaceResult where
  globalDofCountVal : Nat
  l2g : Nat → Fin 3 → Nat
  mult : Nat → Fin 3 → Int
  support : Nat → Bool

/-- `Rwg0FunctionSpace.__init__`: run the assignment, then fail with the
empty-support error when the reduced support is empty. -/
def rwg0Init (g : Grid) (support : Nat → Bool) (ibd : Bool) :
    Except String SpaceResult :=
  if supportSize g support ibd = 0 then
    Except.error "The support of the function space is empty."
  else
    Except.ok
      { globalDofCountVal := globalDofCount g support ibd
        l2g := (runAssign g support ibd).l2g
        mult := (runAssign g support ibd).mult
        support := finalSupport g support ibd }

/-- `Rwg0FunctionSpace.numba_surface_gradient`: raises
`NotImplementedError` unconditionally. -/
def numbaSurfaceGradient : Except String Unit :=
  Except.error "NotImplementedError"

/-- `Rwg0FunctionSpace.surface_gradient(element, local_coordinates)`:
raises `NotImplementedError` unconditionally. -/
def surfaceGradient (element : Nat) (localCoordinates : List (ℚ × ℚ)) :
    Except String (List ℚ) :=
  Except.error "NotImplementedError"

end Bempp

namespace Bempp

/-! ### The sparse assembler (`bempp/core/sparse_assembler.py`)

`np.repeat(xs, n)` and `np.tile(xs, n)` become `npRepeat`/`npTile`; the
device result buffer retrieved by `assemble_sparse` is opaque to the host
code, so it enters the model as a function `data : Nat → ℚ` giving the
buffer entry at each flat position. -/

/-- `np.repeat(xs, n)`: each entry repeated `n` times in place. -/
def npRepeat {α : Type} (xs : List α) (n : Nat) : List α :=
  xs.flatMap (fun x => List.replicate n x)

/-- `np.tile(xs, n)`: the whole list repeated `n` times. -/
def npTile {α : Type} (xs : List α) (n : Nat) : List α :=
  (List.replicate n xs).flatten

/-- A function space as `assemble_sparse` and `SparseAssembler.assemble`
see it: the grid instance it references (spaces share a grid exactly when
the reference is identical, modelled by an id), its support mask, the
number of shape functions of its localised space, and its
`local2global`/`local_multipliers` arrays of row width equal to that
number. -/
structure AsmSpace where
  gridId : Nat
  numElements : Nat
  support : Nat → Bool
  numShapeFunctions : Nat
  local2global : Nat → Nat → Nat
  localMultipliers : Nat → Nat → ℚ
  globalDofCount : Nat

/-- `np.flatnonzero(domain.support * dual_to_range.support)`: the active
elements, in increasing order. -/
def activeElements (domain dual : AsmSpace) : List Nat :=
  (List.range domain.numElements).filter
    (fun e => domain.support e && dual.support e)

/-- Reading a raveled (row-major flattened) 2-d array of row width `w` at
flat position `p`. -/
def ravel2 {α : Type} (f : Nat → Nat → α) (w p : Nat) : α :=
  f (p / w) (p % w)

/-- The `i_ind` array of `assemble_sparse`: local test-slot indices offset
per active element. -/
def rawRowIndices (nTest nTrial : Nat) (elems : List Nat) : List Nat :=
  List.zipWith (· + ·)
    (npTile (npRepeat (List.range nTest) nTrial) elems.length)
    (npRepeat (elems.map (· * nTest)) (nTest * nTrial))

/-- The `j_ind` array of `assemble_sparse`: local trial-slot indices offset
per active element. -/
def rawColIndices (nTest nTrial : Nat) (elems : List Nat) : List Nat :=
  List.zipWith (· + ·)
    (npTile (npTile (List.range nTrial) nTest) elems.length)
    (npRepeat (elems.map (· * nTrial)) (nTest * nTrial))

/-- The host copy of the device result buffer: one value per flat position
`element position × test slot × trial slot`, row-major. -/
def resultBuffer (nTest nTrial : Nat) (elems : List Nat) (data : Nat → ℚ) :
    List ℚ :=
  (List.range (elems.length * (nTest * nTrial))).map data

/-- `assemble_sparse(domain, dual_to_range, ...)`: fail when the two spaces
are not on the identical grid, otherwise return the `(i_ind, j_ind,
result)` triple (device orchestration is external; the retrieved buffer is
the `data` argument). -/
def assembleSparse (domain dual : AsmSpace) (data : Nat → ℚ) :
    Except String (List Nat × List Nat × List ℚ) :=
  if domain.gridId ≠ dual.gridId then
    Except.error "domain and dual_to_range must be defined on the same grid."
  else
    Except.ok
      (rawRowIndices dual.numShapeFunctions domain.numShapeFunctions
          (activeElements domain dual),
        rawColIndices dual.numShapeFunctions domain.numShapeFunctions
          (activeElements domain dual),
        resultBuffer dual.numShapeFunctions domain.numShapeFunctions
          (activeElements domain dual) data)

/-- `SparseAssembler.assemble`: map local row/col indices through the
raveled `local2global` maps and scale the data by the raveled multipliers
(`new_data = data * trial_multipliers[cols] * test_multipliers[rows]`). -/
def assembleCoo (domain dual : AsmSpace) (data : Nat → ℚ) :
    Except String (List Nat × List Nat × List ℚ) :=
  match assembleSparse domain dual data with
  | Except.error e => Except.error e
  | Except.ok (rows, cols, vals) =>
      Except.ok
        (rows.map (ravel2 dual.local2global dual.numShapeFunctions),
          cols.map (ravel2 domain.local2global domain.numShapeFunctions),
          List.zipWith (· * ·)
            (List.zipWith (· * ·) vals
              (cols.map (ravel2 domain.localMultipliers domain.numShapeFunctions)))
            (rows.map (ravel2 dual.localMultipliers dual.numShapeFunctions)))

/-- The entry of `coo_matrix((vals, (rows, cols))).tocsr()` at `(r, c)`:
all triplets with that row and column are summed. -/
def cooEntry : List Nat → List Nat → List ℚ → Nat → Nat → ℚ
  | r0 :: rs, c0 :: cs, v0 :: vs, r, c =>
      (if r0 = r ∧ c0 = c then v0 else 0) + cooEntry rs cs vs r c
  | _, _, _, _, _ => 0

end Bempp

namespace Bempp

/-! ### Concrete meshes used to instantiate the theorems -/

/-- A tetrahedral surface: 4 triangles, 6 edges, every edge shared by
exactly two elements (a closed mesh). -/
def tetraGrid : Grid where
  numElements := 4
  numEdges := 6
  elementEdges := fun el li =>
    if el = 0 then (if li = 0 then 0 else if li = 1 then 1 else 3)
    else if el = 1 then (if li = 0 then 0 else if li = 1 then 2 else 4)
    else if el = 2 then (if li = 0 then 1 else if li = 1 then 2 else 5)
    else if el = 3 then (if li = 0 then 3 else if li = 1 then 4 else 5)
    else 0
  edgeNeighbors := fun e =>
    if e = 0 then [0, 1]
    else if e = 1 then [0, 2]
    else if e = 2 then [1, 2]
    else if e = 3 then [0, 3]
    else if e = 4 then [1, 3]
    else if e = 5 then [2, 3]
    else []

/-- Two triangles sharing edge 2; edges 0,1,3,4 are boundary edges. -/
def twoTriGrid : Grid where
  numElements := 2
  numEdges := 5
  elementEdges := fun el li =>
    if el = 0 then (if li = 0 then 0 else if li = 1 then 1 else 2)
    else if el = 1 then (if li = 0 then 2 else if li = 1 then 3 else 4)
    else 0
  edgeNeighbors := fun e =>
    if e = 0 then [0]
    else if e = 1 then [0]
    else if e = 2 then [0, 1]
    else if e = 3 then [1]
    else if e = 4 then [1]
    else []

/-- A single isolated triangle: every edge is a boundary edge. -/
def oneTriGrid : Grid where
  numElements := 1
  numEdges := 3
  elementEdges := fun _ li => if li = 0 then 0 else if li = 1 then 1 else 2
  edgeNeighbors := fun e =>
    if e = 0 then [0] else if e = 1 then [0] else if e = 2 then [0] else []

/-- A two-element assembler space whose support holds only element 1, so
the single active element sits at position 0 of the active-element list
while its element index is 1. -/
def skewSpace : AsmSpace where
  gridId := 0
  numElements := 2
  support := fun e => e == 1
  numShapeFunctions := 3
  local2global := fun _ _ => 0
  localMultipliers := fun _ _ => 1
  globalDofCount := 1

/-- An assembler space on a different grid instance than `skewSpace`. -/
def otherGridSpace : AsmSpace where
  gridId := 1
  numElements := 2
  support := fun _ => true
  numShapeFunctions := 3
  local2global := fun _ _ => 0
  localMultipliers := fun _ _ => 1
  globalDofCount := 1

end Bempp

namespace Bempp

/-! ### List lemmas for the numpy index constructions -/

theorem npRepeat_nil {α : Type} (n : Nat) : npRepeat ([] : List α) n = [] := rfl

theorem npRepeat_cons {α : Type} (x : α) (xs : List α) (n : Nat) :
    npRepeat (x :: xs) n = List.replicate n x ++ npRepeat xs n := by
  simp [npRepeat]

theorem npTile_zero {α : Type} (xs : List α) : npTile xs 0 = [] := rfl

theorem npTile_succ {α : Type} (xs : List α) (n : Nat) :
    npTile xs (n + 1) = xs ++ npTile xs n := by
  simp [npTile, List.replicate_succ]

theorem length_npRepeat {α : Type} (xs : List α) (n : Nat) :
    (npRepeat xs n).length = xs.length * n := by
  induction xs with
  | nil => simp [npRepeat]
  | cons x xs ih => rw [npRepeat_cons, List.length_append, ih]; simp; ring

theorem length_npTile {α : Type} (xs : List α) (n : Nat) :
    (npTile xs n).length = n * xs.length := by
  induction n with
  | zero => simp [npTile]
  | succ n ih => rw [npTile_succ, List.length_append, ih]; ring

theorem map_npRepeat {α β : Type} (g : α → β) (xs : List α) (n : Nat) :
    (npRepeat xs n).map g = npRepeat (xs.map g) n := by
  induction xs with
  | nil => rfl
  | cons x xs ih => simp [npRepeat_cons, ih, List.map_replicate]

theorem map_npTile {α β : Type} (g : α → β) (xs : List α) (n : Nat) :
    (npTile xs n).map g = npTile (xs.map g) n := by
  induction n with
  | zero => rfl
  | succ n ih => simp [npTile_succ, ih]

theorem zipWith_replicate_right {α β γ : Type} (f : α → β → γ) (b : β) :
    ∀ (xs : List α) (n : Nat), xs.length ≤ n →
      List.zipWith f xs (List.replicate n b) = xs.map (fun a => f a b)
  | [], _, _ => by simp
  | x :: xs, 0, h => by simp at h
  | x :: xs, n + 1, h => by
      rw [List.replicate_succ, List.zipWith_cons_cons, List.map_cons,
        zipWith_replicate_right f b xs n (by simpa using h)]

theorem rawRowIndices_cons (nTest nTrial el : Nat) (rest : List Nat) :
    rawRowIndices nTest nTrial (el :: rest) =
      (npRepeat (List.range nTest) nTrial).map (· + el * nTest) ++
        rawRowIndices nTest nTrial rest := by
  have hlen : (npRepeat (List.range nTest) nTrial).length = nTest * nTrial := by
    rw [length_npRepeat, List.length_range]
  unfold rawRowIndices
  rw [show (el :: rest).length = rest.length + 1 from rfl, npTile_succ,
    List.map_cons, npRepeat_cons,
    List.zipWith_append _ _ _ _ _ (by rw [hlen, List.length_replicate]),
    zipWith_replicate_right _ _ _ _ (le_of_eq hlen)]

theorem rawColIndices_cons (nTest nTrial el : Nat) (rest : List Nat) :
    rawColIndices nTest nTrial (el :: rest) =
      (npTile (List.range nTrial) nTest).map (· + el * nTrial) ++
        rawColIndices nTest nTrial rest := by
  have hlen : (npTile (List.range nTrial) nTest).length = nTest * nTrial := by
    rw [length_npTile, List.length_range]
  unfold rawColIndices
  rw [show (el :: rest).length = rest.length + 1 from rfl, npTile_succ,
    List.map_cons, npRepeat_cons,
    List.zipWith_append _ _ _ _ _ (by rw [hlen, List.length_replicate]),
    zipWith_replicate_right _ _ _ _ (le_of_eq hlen)]

theorem resultBuffer_cons (nTest nTrial el : Nat) (rest : List Nat) (data : Nat → ℚ) :
    resultBuffer nTest nTrial (el :: rest) data =
      (List.range (nTest * nTrial)).map data ++
        resultBuffer nTest nTrial rest (fun p => data (nTest * nTrial + p)) := by
  unfold resultBuffer
  rw [show (el :: rest).length * (nTest * nTrial) =
      nTest * nTrial + rest.length * (nTest * nTrial) from by
        rw [List.length_cons]; ring,
    List.range_add, List.map_append, List.map_map]
  rfl

theorem length_rawRowIndices (nTest nTrial : Nat) (elems : List Nat) :
    (rawRowIndices nTest nTrial elems).length = elems.length * (nTest * nTrial) := by
  induction elems with
  | nil => simp [rawRowIndices, npRepeat, npTile]
  | cons el rest ih =>
      rw [rawRowIndices_cons, List.length_append, ih, List.length_map,
        length_npRepeat, List.length_range]
      simp; ring

theorem length_rawColIndices (nTest nTrial : Nat) (elems : List Nat) :
    (rawColIndices nTest nTrial elems).length = elems.length * (nTest * nTrial) := by
  induction elems with
  | nil => simp [rawColIndices, npRepeat, npTile]
  | cons el rest ih =>
      rw [rawColIndices_cons, List.length_append, ih, List.length_map,
        length_npTile, List.length_range]
      simp; ring

theorem cooEntry_append (r c : Nat) :
    ∀ (a1 b1 : List Nat) (c1 : List ℚ) (a2 b2 : List Nat) (c2 : List ℚ),
      a1.length = b1.length → b1.length = c1.length →
      cooEntry (a1 ++ a2) (b1 ++ b2) (c1 ++ c2) r c =
        cooEntry a1 b1 c1 r c + cooEntry a2 b2 c2 r c
  | [], [], [], a2, b2, c2, _, _ => by simp [cooEntry]
  | [], b :: bs, _, _, _, _, h1, _ => by simp at h1
  | a :: as, [], _, _, _, _, h1, _ => by simp at h1
  | a :: as, b :: bs, [], _, _, _, _, h2 => by simp at h2
  | a :: as, b :: bs, v :: vs, a2, b2, c2, h1, h2 => by
      simp only [List.cons_append, cooEntry, List.append_eq]
      rw [cooEntry_append r c as bs vs a2 b2 c2 (by simpa using h1) (by simpa using h2),
        add_assoc]

theorem cooEntry_row (r c : Nat) :
    ∀ (m : Nat) (R0 : Nat) (C : Nat → Nat) (VR0 : ℚ) (VC D : Nat → ℚ),
      cooEntry (List.replicate m R0) ((List.range m).map C)
        (List.zipWith (· * ·)
          (List.zipWith (· * ·) ((List.range m).map D) ((List.range m).map VC))
          (List.replicate m VR0)) r c
      = ∑ j ∈ Finset.range m,
          if R0 = r ∧ C j = c then D j * VR0 * VC j else 0 := by
  intro m
  induction m with
  | zero => intro R0 C VR0 VC D; simp [cooEntry]
  | succ m ih =>
      intro R0 C VR0 VC D
      rw [List.range_succ_eq_map]
      simp only [List.map_cons, List.map_map, List.replicate_succ,
        List.zipWith_cons_cons]
      simp only [cooEntry]
      rw [ih R0 (C ∘ Nat.succ) VR0 (VC ∘ Nat.succ) (D ∘ Nat.succ),
        Finset.sum_range_succ']
      rw [mul_right_comm (D 0) (VC 0) VR0]
      simp only [Function.comp]
      exact add_comm _ _

theorem cooEntry_block (r c : Nat) :
    ∀ (nTest : Nat) (m : Nat) (R C : Nat → Nat) (VR VC D : Nat → ℚ),
      cooEntry (npRepeat ((List.range nTest).map R) m)
        (npTile ((List.range m).map C) nTest)
        (List.zipWith (· * ·)
          (List.zipWith (· * ·) ((List.range (nTest * m)).map D)
            (npTile ((List.range m).map VC) nTest))
          (npRepeat ((List.range nTest).map VR) m)) r c
      = ∑ i ∈ Finset.range nTest, ∑ j ∈ Finset.range m,
          if R i = r ∧ C j = c then D (i * m + j) * VR i * VC j else 0 := by
  intro nTest
  induction nTest with
  | zero => intro m R C VR VC D; simp [cooEntry, npRepeat, npTile]
  | succ nTest ih =>
      intro m R C VR VC D
      have hsplit : ∀ (f : Nat → ℚ), (List.range ((nTest + 1) * m)).map f =
          (List.range m).map f ++
            (List.range (nTest * m)).map (fun p => f (m + p)) := by
        intro f
        rw [show (nTest + 1) * m = m + nTest * m from by ring, List.range_add,
          List.map_append, List.map_map]
        rfl
      have hrowR : npRepeat ((List.range (nTest + 1)).map R) m =
          List.replicate m (R 0) ++
            npRepeat ((List.range nTest).map (R ∘ Nat.succ)) m := by
        rw [List.range_succ_eq_map, List.map_cons, List.map_map, npRepeat_cons]
      have hrowVR : npRepeat ((List.range (nTest + 1)).map VR) m =
          List.replicate m (VR 0) ++
            npRepeat ((List.range nTest).map (VR ∘ Nat.succ)) m := by
        rw [List.range_succ_eq_map, List.map_cons, List.map_map, npRepeat_cons]
      have hlenD : ((List.range m).map D).length = m := by simp
      have hlenVC : ((List.range m).map VC).length = m := by simp
      rw [hrowR, hrowVR, npTile_succ ((List.range m).map C) nTest,
        npTile_succ ((List.range m).map VC) nTest, hsplit D,
        List.zipWith_append _ _ _ _ _ (by simp),
        List.zipWith_append _ _ _ _ _ (by simp [List.length_zipWith]),
        cooEntry_append r c _ _ _ _ _ _ (by simp [length_npTile])
          (by simp [List.length_zipWith, length_npTile]),
        cooEntry_row r c m (R 0) C (VR 0) VC D,
        ih m (R ∘ Nat.succ) C (VR ∘ Nat.succ) VC (fun p => D (m + p)),
        Finset.sum_range_succ']
      have hterm : ∀ i ∈ Finset.range nTest,
          (∑ j ∈ Finset.range m,
            if (R ∘ Nat.succ) i = r ∧ C j = c then
              (fun p => D (m + p)) (i * m + j) * (VR ∘ Nat.succ) i * VC j
            else 0)
          = ∑ j ∈ Finset.range m,
              if R (i + 1) = r ∧ C j = c then
                D ((i + 1) * m + j) * VR (i + 1) * VC j else 0 := by
        intro i _
        refine Finset.sum_congr rfl (fun j _ => ?_)
        have : m + (i * m + j) = (i + 1) * m + j := by ring
        simp only [Function.comp]
        rw [this]
      rw [Finset.sum_congr rfl hterm]
      have hzero : (∑ j ∈ Finset.range m,
          if R 0 = r ∧ C j = c then D j * VR 0 * VC j else 0)
          = ∑ j ∈ Finset.range m,
            if R 0 = r ∧ C j = c then D (0 * m + j) * VR 0 * VC j else 0 := by
        refine Finset.sum_congr rfl (fun j _ => ?_)
        rw [show 0 * m + j = j from by ring]
      rw [hzero]
      exact add_comm _ _

theorem ravel2_block {α : Type} (f : Nat → Nat → α) (w el i : Nat) (h : i < w) :
    ravel2 f w (i + el * w) = f el i := by
  have hw : 0 < w := lt_of_le_of_lt (Nat.zero_le i) h
  unfold ravel2
  rw [Nat.add_mul_div_right _ _ hw, Nat.div_eq_of_lt h, Nat.zero_add,
    Nat.add_mul_mod_self_right, Nat.mod_eq_of_lt h]

theorem row_block_eq {α : Type} (f : Nat → Nat → α) (nTest m el : Nat) :
    ((npRepeat (List.range nTest) m).map (· + el * nTest)).map (ravel2 f nTest)
    = npRepeat ((List.range nTest).map (fun i => f el i)) m := by
  rw [List.map_map, map_npRepeat]
  congr 1
  exact List.map_congr_left
    (fun i hi => ravel2_block f nTest el i (List.mem_range.mp hi))

theorem col_block_eq {α : Type} (f : Nat → Nat → α) (nTest m el : Nat) :
    ((npTile (List.range m) nTest).map (· + el * m)).map (ravel2 f m)
    = npTile ((List.range m).map (fun j => f el j)) nTest := by
  rw [List.map_map, map_npTile]
  congr 1
  exact List.map_congr_left
    (fun j hj => ravel2_block f m el j (List.mem_range.mp hj))

theorem cooEntry_master (r c nTest nTrial : Nat)
    (L2T L2D : Nat → Nat → Nat) (MT MD : Nat → Nat → ℚ) :
    ∀ (elems : List Nat) (data : Nat → ℚ),
      cooEntry
        ((rawRowIndices nTest nTrial elems).map (ravel2 L2T nTest))
        ((rawColIndices nTest nTrial elems).map (ravel2 L2D nTrial))
        (List.zipWith (· * ·)
          (List.zipWith (· * ·) (resultBuffer nTest nTrial elems data)
            ((rawColIndices nTest nTrial elems).map (ravel2 MD nTrial)))
          ((rawRowIndices nTest nTrial elems).map (ravel2 MT nTest)))
        r c
      = ∑ k ∈ Finset.range elems.length, ∑ i ∈ Finset.range nTest,
          ∑ j ∈ Finset.range nTrial,
            if L2T (elems.getD k 0) i = r ∧ L2D (elems.getD k 0) j = c then
              data (k * (nTest * nTrial) + (i * nTrial + j)) *
                MT (elems.getD k 0) i * MD (elems.getD k 0) j
            else 0
  | [], data => by
      simp [rawRowIndices, rawColIndices, resultBuffer, npRepeat, npTile, cooEntry]
  | el :: rest, data => by
      have hlrow : ∀ (β : Type) (f : Nat → Nat → β),
          (((npRepeat (List.range nTest) nTrial).map (· + el * nTest)).map
            (ravel2 f nTest)).length = nTest * nTrial := by
        intro β f; simp [length_npRepeat]
      have hlcol : ∀ (β : Type) (f : Nat → Nat → β),
          (((npTile (List.range nTrial) nTest).map (· + el * nTrial)).map
            (ravel2 f nTrial)).length = nTest * nTrial := by
        intro β f; simp [length_npTile]
      rw [rawRowIndices_cons, rawColIndices_cons, resultBuffer_cons,
        List.map_append, List.map_append, List.map_append, List.map_append,
        List.zipWith_append _ _ _ _ _ (by rw [List.length_map, List.length_range,
          hlcol ℚ MD]),
        List.zipWith_append _ _ _ _ _ (by rw [List.length_zipWith,
          List.length_map, List.length_range, hlcol ℚ MD, min_self, hlrow ℚ MT]),
        cooEntry_append r c _ _ _ _ _ _ (by rw [hlrow Nat L2T, hlcol Nat L2D])
          (by rw [hlcol Nat L2D, List.length_zipWith, List.length_zipWith,
            List.length_map, List.length_range, hlcol ℚ MD, hlrow ℚ MT, min_self,
            min_self]),
        row_block_eq L2T nTest nTrial el, col_block_eq L2D nTest nTrial el,
        row_block_eq MT nTest nTrial el, col_block_eq MD nTest nTrial el,
        cooEntry_block r c nTest nTrial (fun i => L2T el i) (fun j => L2D el j)
          (fun i => MT el i) (fun j => MD el j) data,
        cooEntry_master r c nTest nTrial L2T L2D MT MD rest
          (fun p => data (nTest * nTrial + p)),
        List.length_cons, Finset.sum_range_succ']
      have hshift : ∀ k ∈ Finset.range rest.length,
          (∑ i ∈ Finset.range nTest, ∑ j ∈ Finset.range nTrial,
            if L2T (rest.getD k 0) i = r ∧ L2D (rest.getD k 0) j = c then
              data (nTest * nTrial + (k * (nTest * nTrial) + (i * nTrial + j))) *
                MT (rest.getD k 0) i * MD (rest.getD k 0) j
            else 0)
          = ∑ i ∈ Finset.range nTest, ∑ j ∈ Finset.range nTrial,
              if L2T ((el :: rest).getD (k + 1) 0) i = r ∧
                  L2D ((el :: rest).getD (k + 1) 0) j = c then
                data ((k + 1) * (nTest * nTrial) + (i * nTrial + j)) *
                  MT ((el :: rest).getD (k + 1) 0) i *
                  MD ((el :: rest).getD (k + 1) 0) j
              else 0 := by
        intro k _
        refine Finset.sum_congr rfl (fun i _ => Finset.sum_congr rfl (fun j _ => ?_))
        rw [List.getD_cons_succ,
          show (k + 1) * (nTest * nTrial) + (i * nTrial + j) =
            nTest * nTrial + (k * (nTest * nTrial) + (i * nTrial + j)) from by ring]
      have hzero :
          (∑ i ∈ Finset.range nTest, ∑ j ∈ Finset.range nTrial,
            if L2T el i = r ∧ L2D el j = c then
              data (i * nTrial + j) * MT el i * MD el j else 0)
          = ∑ i ∈ Finset.range nTest, ∑ j ∈ Finset.range nTrial,
              if L2T ((el :: rest).getD 0 0) i = r ∧
                  L2D ((el :: rest).getD 0 0) j = c then
                data (0 * (nTest * nTrial) + (i * nTrial + j)) *
                  MT ((el :: rest).getD 0 0) i * MD ((el :: rest).getD 0 0) j
              else 0 := by
        refine Finset.sum_congr rfl (fun i _ => Finset.sum_congr rfl (fun j _ => ?_))
        rw [List.getD_cons_zero,
          show 0 * (nTest * nTrial) + (i * nTrial + j) = i * nTrial + j from by ring]
      rw [Finset.sum_congr rfl hshift, hzero]
      exact add_comm _ _

theorem npRepeat_range_map_getD {α : Type} (d : α) :
    ∀ (n : Nat) (f : Nat → α) (m i j : Nat), i < n → j < m →
      (npRepeat ((List.range n).map f) m).getD (i * m + j) d = f i
  | 0, f, m, i, j, hi, _ => absurd hi (Nat.not_lt_zero i)
  | n + 1, f, m, i, j, hi, hj => by
      rw [List.range_succ_eq_map, List.map_cons, List.map_map, npRepeat_cons]
      match i with
      | 0 =>
          rw [show 0 * m + j = j from by ring,
            List.getD_append _ _ _ _ (by rw [List.length_replicate]; exact hj),
            List.getD_eq_getElem _ _ (by rw [List.length_replicate]; exact hj),
            List.getElem_replicate]
      | i + 1 =>
          rw [List.getD_append_right _ _ _ _
            (by rw [List.length_replicate]
                calc m = 1 * m + 0 := by ring
                _ ≤ (i + 1) * m + j := by
                  exact Nat.add_le_add (Nat.mul_le_mul_right m (by omega))
                    (Nat.zero_le j)),
            List.length_replicate,
            show (i + 1) * m + j - m = i * m + j from by
              rw [Nat.succ_mul]; omega,
            npRepeat_range_map_getD d n (f ∘ Nat.succ) m i j (by omega) hj]
          rfl

theorem npTile_range_map_getD {α : Type} (d : α) :
    ∀ (n : Nat) (f : Nat → α) (m i j : Nat), i < n → j < m →
      (npTile ((List.range m).map f) n).getD (i * m + j) d = f j
  | 0, f, m, i, j, hi, _ => absurd hi (Nat.not_lt_zero i)
  | n + 1, f, m, i, j, hi, hj => by
      rw [npTile_succ]
      match i with
      | 0 =>
          rw [show 0 * m + j = j from by ring,
            List.getD_append _ _ _ _ (by simp [hj]),
            List.getD_eq_getElem _ _ (by simp [hj])]
          simp
      | i + 1 =>
          rw [List.getD_append_right _ _ _ _
            (by rw [List.length_map, List.length_range]
                calc m = 1 * m + 0 := by ring
                _ ≤ (i + 1) * m + j := by
                  exact Nat.add_le_add (Nat.mul_le_mul_right m (by omega))
                    (Nat.zero_le j)),
            List.length_map, List.length_range,
            show (i + 1) * m + j - m = i * m + j from by
              rw [Nat.succ_mul]; omega,
            npTile_range_map_getD d n f m i j (by omega) hj]

theorem rawRowIndices_getD :
    ∀ (elems : List Nat) (nTest m k i j : Nat), k < elems.length → i < nTest →
      j < m →
      (rawRowIndices nTest m elems).getD (k * (nTest * m) + (i * m + j)) 0
        = elems.getD k 0 * nTest + i
  | [], _, _, k, _, _, hk, _, _ => absurd hk (by simp)
  | el :: rest, nTest, m, k, i, j, hk, hi, hj => by
      have hblock : ((npRepeat (List.range nTest) m).map (· + el * nTest)).length
          = nTest * m := by
        rw [List.length_map, length_npRepeat, List.length_range]
      have hlt : i * m + j < nTest * m := by
        calc i * m + j < i * m + m := by omega
        _ = (i + 1) * m := by ring
        _ ≤ nTest * m := Nat.mul_le_mul_right m (by omega)
      rw [rawRowIndices_cons]
      match k with
      | 0 =>
          rw [show 0 * (nTest * m) + (i * m + j) = i * m + j from by ring,
            List.getD_append _ _ _ _ (by rw [hblock]; exact hlt),
            map_npRepeat, npRepeat_range_map_getD 0 nTest _ m i j hi hj,
            List.getD_cons_zero]
          exact Nat.add_comm i (el * nTest)
      | k + 1 =>
          rw [List.getD_append_right _ _ _ _
            (by rw [hblock]
                calc nTest * m = 1 * (nTest * m) + 0 := by ring
                _ ≤ (k + 1) * (nTest * m) + (i * m + j) :=
                  Nat.add_le_add (Nat.mul_le_mul_right _ (by omega)) (Nat.zero_le _)),
            hblock,
            show (k + 1) * (nTest * m) + (i * m + j) - nTest * m
              = k * (nTest * m) + (i * m + j) from by rw [Nat.succ_mul]; omega,
            rawRowIndices_getD rest nTest m k i j (by simpa using hk) hi hj,
            List.getD_cons_succ]

theorem rawColIndices_getD :
    ∀ (elems : List Nat) (nTest m k i j : Nat), k < elems.length → i < nTest →
      j < m →
      (rawColIndices nTest m elems).getD (k * (nTest * m) + (i * m + j)) 0
        = elems.getD k 0 * m + j
  | [], _, _, k, _, _, hk, _, _ => absurd hk (by simp)
  | el :: rest, nTest, m, k, i, j, hk, hi, hj => by
      have hblock : ((npTile (List.range m) nTest).map (· + el * m)).length
          = nTest * m := by
        rw [List.length_map, length_npTile, List.length_range]
      have hlt : i * m + j < nTest * m := by
        calc i * m + j < i * m + m := by omega
        _ = (i + 1) * m := by ring
        _ ≤ nTest * m := Nat.mul_le_mul_right m (by omega)
      rw [rawColIndices_cons]
      match k with
      | 0 =>
          rw [show 0 * (nTest * m) + (i * m + j) = i * m + j from by ring,
            List.getD_append _ _ _ _ (by rw [hblock]; exact hlt),
            map_npTile, npTile_range_map_getD 0 nTest _ m i j hi hj,
            List.getD_cons_zero]
          exact Nat.add_comm j (el * m)
      | k + 1 =>
          rw [List.getD_append_right _ _ _ _
            (by rw [hblock]
                calc nTest * m = 1 * (nTest * m) + 0 := by ring
                _ ≤ (k + 1) * (nTest * m) + (i * m + j) :=
                  Nat.add_le_add (Nat.mul_le_mul_right _ (by omega)) (Nat.zero_le _)),
            hblock,
            show (k + 1) * (nTest * m) + (i * m + j) - nTest * m
              = k * (nTest * m) + (i * m + j) from by rw [Nat.succ_mul]; omega,
            rawColIndices_getD rest nTest m k i j (by simpa using hk) hi hj,
            List.getD_cons_succ]

/-- C1: for an assembly call on two spaces sharing one grid, the entry of
the returned sparse matrix at (global test DOF `r`, global trial DOF `c`)
is the sum, over every active element (the intersection of the two
supports) and every (test slot, trial slot) pair whose local-to-global maps
hit `r` and `c`, of the kernel-evaluated local contribution multiplied by
the test multiplier and the trial multiplier of that element and slot,
duplicates summed. -/
theorem claim1_assembled_matrix_entry (domain dual : AsmSpace) (data : Nat → ℚ)
    (r c : Nat) (h : domain.gridId = dual.gridId) :
    ∃ rows cols vals,
      assembleCoo domain dual data = Except.ok (rows, cols, vals) ∧
      cooEntry rows cols vals r c
        = ∑ k ∈ Finset.range (activeElements domain dual).length,
            ∑ i ∈ Finset.range dual.numShapeFunctions,
              ∑ j ∈ Finset.range domain.numShapeFunctions,
                if dual.local2global ((activeElements domain dual).getD k 0) i = r ∧
                    domain.local2global ((activeElements domain dual).getD k 0) j = c
                then
                  data (k * (dual.numShapeFunctions * domain.numShapeFunctions) +
                      (i * domain.numShapeFunctions + j)) *
                    dual.localMultipliers ((activeElements domain dual).getD k 0) i *
                    domain.localMultipliers ((activeElements domain dual).getD k 0) j
                else 0 := by
  have hs : assembleSparse domain dual data = Except.ok
      (rawRowIndices dual.numShapeFunctions domain.numShapeFunctions
          (activeElements domain dual),
        rawColIndices dual.numShapeFunctions domain.numShapeFunctions
          (activeElements domain dual),
        resultBuffer dual.numShapeFunctions domain.numShapeFunctions
          (activeElements domain dual) data) := by
    unfold assembleSparse
    rw [if_neg (not_not_intro h)]
  refine ⟨(rawRowIndices dual.numShapeFunctions domain.numShapeFunctions
      (activeElements domain dual)).map
        (ravel2 dual.local2global dual.numShapeFunctions),
    (rawColIndices dual.numShapeFunctions domain.numShapeFunctions
      (activeElements domain dual)).map
        (ravel2 domain.local2global domain.numShapeFunctions),
    List.zipWith (· * ·)
      (List.zipWith (· * ·)
        (resultBuffer dual.numShapeFunctions domain.numShapeFunctions
          (activeElements domain dual) data)
        ((rawColIndices dual.numShapeFunctions domain.numShapeFunctions
          (activeElements domain dual)).map
            (ravel2 domain.localMultipliers domain.numShapeFunctions)))
      ((rawRowIndices dual.numShapeFunctions domain.numShapeFunctions
        (activeElements domain dual)).map
          (ravel2 dual.localMultipliers dual.numShapeFunctions)), ?_, ?_⟩
  · unfold assembleCoo
    rw [hs]
  · exact cooEntry_master r c dual.numShapeFunctions domain.numShapeFunctions
      dual.local2global domain.local2global dual.localMultipliers
      domain.localMultipliers (activeElements domain dual) data

/-- Witness for C1 at a concrete pair of spaces on the same grid. -/
theorem claim1_witness :
    ∃ rows cols vals,
      assembleCoo skewSpace skewSpace (fun _ => 1) = Except.ok (rows, cols, vals) ∧
      cooEntry rows cols vals 0 0
        = ∑ k ∈ Finset.range (activeElements skewSpace skewSpace).length,
            ∑ i ∈ Finset.range skewSpace.numShapeFunctions,
              ∑ j ∈ Finset.range skewSpace.numShapeFunctions,
                if skewSpace.local2global
                      ((activeElements skewSpace skewSpace).getD k 0) i = 0 ∧
                    skewSpace.local2global
                      ((activeElements skewSpace skewSpace).getD k 0) j = 0 then
                  (fun _ => (1 : ℚ))
                      (k * (skewSpace.numShapeFunctions * skewSpace.numShapeFunctions) +
                        (i * skewSpace.numShapeFunctions + j)) *
                    skewSpace.localMultipliers
                      ((activeElements skewSpace skewSpace).getD k 0) i *
                    skewSpace.localMultipliers
                      ((activeElements skewSpace skewSpace).getD k 0) j
                else 0 :=
  claim1_assembled_matrix_entry skewSpace skewSpace (fun _ => 1) 0 0 rfl

/-- C3 as frozen is false: the per-element offsets of `i_ind`/`j_ind` use
the element's grid index, not its position in the active-element list. On
`skewSpace` the single active element has index 1 at position 0, so the
first entry of `i_ind` is 3, not 0. -/
theorem claim3_position_offset_false :
    ¬ (∀ k, k < (activeElements skewSpace skewSpace).length →
        ∀ i, i < skewSpace.numShapeFunctions →
        ∀ j, j < skewSpace.numShapeFunctions →
        (rawRowIndices skewSpace.numShapeFunctions skewSpace.numShapeFunctions
            (activeElements skewSpace skewSpace)).getD
            (k * (skewSpace.numShapeFunctions * skewSpace.numShapeFunctions) +
              (i * skewSpace.numShapeFunctions + j)) 0
          = k * skewSpace.numShapeFunctions + i ∧
        (rawColIndices skewSpace.numShapeFunctions skewSpace.numShapeFunctions
            (activeElements skewSpace skewSpace)).getD
            (k * (skewSpace.numShapeFunctions * skewSpace.numShapeFunctions) +
              (i * skewSpace.numShapeFunctions + j)) 0
          = k * skewSpace.numShapeFunctions + j) := by
  decide

/-- C3 amended: in the host-side index reconstruction, the block of the
active element at position `k` carries local row indices offset by
(element index) × test_slot_count and local column indices offset by
(element index) × trial_slot_count, laid out row-major per element. -/
theorem claim3_row_col_offsets (domain dual : AsmSpace) :
    ∀ k, k < (activeElements domain dual).length →
    ∀ i, i < dual.numShapeFunctions →
    ∀ j, j < domain.numShapeFunctions →
      (rawRowIndices dual.numShapeFunctions domain.numShapeFunctions
          (activeElements domain dual)).getD
          (k * (dual.numShapeFunctions * domain.numShapeFunctions) +
            (i * domain.numShapeFunctions + j)) 0
        = (activeElements domain dual).getD k 0 * dual.numShapeFunctions + i ∧
      (rawColIndices dual.numShapeFunctions domain.numShapeFunctions
          (activeElements domain dual)).getD
          (k * (dual.numShapeFunctions * domain.numShapeFunctions) +
            (i * domain.numShapeFunctions + j)) 0
        = (activeElements domain dual).getD k 0 * domain.numShapeFunctions + j := by
  intro k hk i hi j hj
  exact ⟨rawRowIndices_getD (activeElements domain dual) _ _ k i j hk hi hj,
    rawColIndices_getD (activeElements domain dual) _ _ k i j hk hi hj⟩

/-- Witness for the amended C3 on `skewSpace`: position 0, element index 1,
so the first row index is 1 × 3 + 0 = 3. -/
theorem claim3_witness :
    (rawRowIndices skewSpace.numShapeFunctions skewSpace.numShapeFunctions
        (activeElements skewSpace skewSpace)).getD
        (0 * (skewSpace.numShapeFunctions * skewSpace.numShapeFunctions) +
          (0 * skewSpace.numShapeFunctions + 0)) 0
      = (activeElements skewSpace skewSpace).getD 0 0 *
          skewSpace.numShapeFunctions + 0 ∧
    (rawColIndices skewSpace.numShapeFunctions skewSpace.numShapeFunctions
        (activeElements skewSpace skewSpace)).getD
        (0 * (skewSpace.numShapeFunctions * skewSpace.numShapeFunctions) +
          (0 * skewSpace.numShapeFunctions + 0)) 0
      = (activeElements skewSpace skewSpace).getD 0 0 *
          skewSpace.numShapeFunctions + 0 :=
  claim3_row_col_offsets skewSpace skewSpace 0 (by decide) 0 (by decide) 0
    (by decide)

/-- C7: the assembler fails with the fatal same-grid precondition error,
before computing anything, exactly when the two spaces reference different
grid instances; on the identical grid the error is never raised. -/
theorem claim7_grid_precondition (domain dual : AsmSpace) (data : Nat → ℚ) :
    (domain.gridId ≠ dual.gridId →
      assembleSparse domain dual data = Except.error
        "domain and dual_to_range must be defined on the same grid." ∧
      assembleCoo domain dual data = Except.error
        "domain and dual_to_range must be defined on the same grid.") ∧
    (domain.gridId = dual.gridId →
      (assembleSparse domain dual data).isOk = true ∧
      (assembleCoo domain dual data).isOk = true) := by
  constructor
  · intro hne
    have hs : assembleSparse domain dual data = Except.error
        "domain and dual_to_range must be defined on the same grid." := by
      unfold assembleSparse
      rw [if_pos hne]
    refine ⟨hs, ?_⟩
    unfold assembleCoo
    rw [hs]
  · intro he
    have hs : assembleSparse domain dual data = Except.ok
        (rawRowIndices dual.numShapeFunctions domain.numShapeFunctions
            (activeElements domain dual),
          rawColIndices dual.numShapeFunctions domain.numShapeFunctions
            (activeElements domain dual),
          resultBuffer dual.numShapeFunctions domain.numShapeFunctions
            (activeElements domain dual) data) := by
      unfold assembleSparse
      rw [if_neg (not_not_intro he)]
    constructor
    · rw [hs]; rfl
    · unfold assembleCoo
      rw [hs]
      rfl

/-- Witness for C7: different grid instances yield the error, the identical
grid yields a result. -/
theorem claim7_witness :
    assembleSparse skewSpace otherGridSpace (fun _ => 1) = Except.error
      "domain and dual_to_range must be defined on the same grid." ∧
    (assembleSparse skewSpace skewSpace (fun _ => 1)).isOk = true :=
  ⟨(claim7_grid_precondition skewSpace otherGridSpace (fun _ => 1)).1
      (by decide) |>.1,
    (claim7_grid_precondition skewSpace skewSpace (fun _ => 1)).2 rfl |>.1⟩

/-- C8: the surface-gradient operation of the lowest-order RWG space is
rejected with NotImplementedError and never returns a value. -/
theorem claim8_surface_gradient_rejected :
    ∀ (element : Nat) (localCoordinates : List (ℚ × ℚ)),
      surfaceGradient element localCoordinates =
        Except.error "NotImplementedError" ∧
      (surfaceGradient element localCoordinates).isOk = false ∧
      numbaSurfaceGradient = Except.error "NotImplementedError" :=
  fun _ _ => ⟨rfl, rfl, rfl⟩

/-! ### Slot-level lemmas for the DOF assignment -/

theorem processSlot_boundary (g : Grid) (support : Nat → Bool) (ibd : Bool)
    (el : Nat) (li : Fin 3) (c : Nat) (ed : Nat → Option Nat)
    (h : otherNeighbor g support el (g.elementEdges el li) = none) :
    processSlot g support ibd el li c ed =
      if ibd then { m := 1, dof := some c, count := c + 1, edgeDofs := ed }
      else { m := 0, dof := none, count := c, edgeDofs := ed } := by
  simp only [processSlot]
  rw [h]

theorem processSlot_interior_reuse (g : Grid) (support : Nat → Bool) (ibd : Bool)
    (el : Nat) (li : Fin 3) (c : Nat) (ed : Nat → Option Nat) (o d : Nat)
    (ho : otherNeighbor g support el (g.elementEdges el li) = some o)
    (hed : ed (g.elementEdges el li) = some d) :
    processSlot g support ibd el li c ed =
      { m := if el = listMin (g.edgeNeighbors (g.elementEdges el li)) then 1 else -1,
        dof := some d, count := c, edgeDofs := ed } := by
  simp only [processSlot]
  rw [ho, hed]

theorem processSlot_interior_alloc (g : Grid) (support : Nat → Bool) (ibd : Bool)
    (el : Nat) (li : Fin 3) (c : Nat) (ed : Nat → Option Nat) (o : Nat)
    (ho : otherNeighbor g support el (g.elementEdges el li) = some o)
    (hed : ed (g.elementEdges el li) = none) :
    processSlot g support ibd el li c ed =
      { m := if el = listMin (g.edgeNeighbors (g.elementEdges el li)) then 1 else -1,
        dof := some c, count := c + 1,
        edgeDofs := fun e => if e = g.elementEdges el li then some c else ed e } := by
  simp only [processSlot]
  rw [ho, hed]

theorem processSlot_edgeDofs_mono (g : Grid) (support : Nat → Bool) (ibd : Bool)
    (el : Nat) (li : Fin 3) (c : Nat) (ed : Nat → Option Nat) (e d : Nat)
    (h : ed e = some d) :
    (processSlot g support ibd el li c ed).edgeDofs e = some d := by
  rcases ho : otherNeighbor g support el (g.elementEdges el li) with _ | o
  · rw [processSlot_boundary g support ibd el li c ed ho]
    cases ibd <;> simpa using h
  · rcases hed : ed (g.elementEdges el li) with _ | d2
    · rw [processSlot_interior_alloc g support ibd el li c ed o ho hed]
      by_cases he : e = g.elementEdges el li
      · rw [he, hed] at h
        exact absurd h (by simp)
      · simpa [he] using h
    · rw [processSlot_interior_reuse g support ibd el li c ed o d2 ho hed]
      exact h

theorem processSlot_count_le (g : Grid) (support : Nat → Bool) (ibd : Bool)
    (el : Nat) (li : Fin 3) (c : Nat) (ed : Nat → Option Nat) :
    c ≤ (processSlot g support ibd el li c ed).count := by
  rcases ho : otherNeighbor g support el (g.elementEdges el li) with _ | o
  · rw [processSlot_boundary g support ibd el li c ed ho]
    cases ibd <;> simp
  · rcases hed : ed (g.elementEdges el li) with _ | d2
    · rw [processSlot_interior_alloc g support ibd el li c ed o ho hed]
      simp
    · rw [processSlot_interior_reuse g support ibd el li c ed o d2 ho hed]

theorem processSlot_dof_isSome_iff (g : Grid) (support : Nat → Bool) (ibd : Bool)
    (el : Nat) (li : Fin 3) (c : Nat) (ed : Nat → Option Nat) :
    (processSlot g support ibd el li c ed).dof.isSome = true ↔
      (processSlot g support ibd el li c ed).m ≠ 0 := by
  rcases ho : otherNeighbor g support el (g.elementEdges el li) with _ | o
  · rw [processSlot_boundary g support ibd el li c ed ho]
    cases ibd <;> simp
  · rcases hed : ed (g.elementEdges el li) with _ | d2
    · rw [processSlot_interior_alloc g support ibd el li c ed o ho hed]
      by_cases hm : el = listMin (g.edgeNeighbors (g.elementEdges el li))
      · simp [if_pos hm]
      · simp [if_neg hm]
    · rw [processSlot_interior_reuse g support ibd el li c ed o d2 ho hed]
      by_cases hm : el = listMin (g.edgeNeighbors (g.elementEdges el li))
      · simp [if_pos hm]
      · simp [if_neg hm]

theorem processSlot_none_frozen (g : Grid) (support : Nat → Bool) (ibd : Bool)
    (el : Nat) (li : Fin 3) (c : Nat) (ed : Nat → Option Nat)
    (h : (processSlot g support ibd el li c ed).dof = none) :
    (processSlot g support ibd el li c ed).count = c ∧
      (processSlot g support ibd el li c ed).edgeDofs = ed := by
  rcases ho : otherNeighbor g support el (g.elementEdges el li) with _ | o
  · rw [processSlot_boundary g support ibd el li c ed ho] at h ⊢
    cases ibd
    · exact ⟨rfl, rfl⟩
    · exact absurd h (by simp)
  · rcases hed : ed (g.elementEdges el li) with _ | d2
    · rw [processSlot_interior_alloc g support ibd el li c ed o ho hed] at h
      exact absurd h (by simp)
    · rw [processSlot_interior_reuse g support ibd el li c ed o d2 ho hed]
      exact ⟨rfl, rfl⟩

theorem processSlot_interior_spec (g : Grid) (support : Nat → Bool) (ibd : Bool)
    (el : Nat) (li : Fin 3) (c : Nat) (ed : Nat → Option Nat) (o : Nat)
    (ho : otherNeighbor g support el (g.elementEdges el li) = some o) :
    ∃ d, (processSlot g support ibd el li c ed).dof = some d ∧
      (processSlot g support ibd el li c ed).edgeDofs (g.elementEdges el li)
        = some d ∧
      (processSlot g support ibd el li c ed).m =
        (if el = listMin (g.edgeNeighbors (g.elementEdges el li)) then 1 else -1) := by
  rcases hed : ed (g.elementEdges el li) with _ | d2
  · rw [processSlot_interior_alloc g support ibd el li c ed o ho hed]
    exact ⟨c, rfl, by simp, rfl⟩
  · rw [processSlot_interior_reuse g support ibd el li c ed o d2 ho hed]
    exact ⟨d2, rfl, hed, rfl⟩

theorem processSlot_val_bound (g : Grid) (support : Nat → Bool) (ibd : Bool)
    (el : Nat) (li : Fin 3) (c : Nat) (ed : Nat → Option Nat)
    (hv : ∀ e d, ed e = some d → d < c) :
    (∀ e d, (processSlot g support ibd el li c ed).edgeDofs e = some d →
      d < (processSlot g support ibd el li c ed).count) ∧
    (∀ d, (processSlot g support ibd el li c ed).dof = some d →
      d < (processSlot g support ibd el li c ed).count) := by
  rcases ho : otherNeighbor g support el (g.elementEdges el li) with _ | o
  · rw [processSlot_boundary g support ibd el li c ed ho]
    cases ibd
    · exact ⟨fun e d h => hv e d h, by simp⟩
    · refine ⟨fun e d h => lt_trans (hv e d h) (by simp), ?_⟩
      intro d h
      simp at h ⊢
      omega
  · rcases hed : ed (g.elementEdges el li) with _ | d2
    · rw [processSlot_interior_alloc g support ibd el li c ed o ho hed]
      refine ⟨?_, ?_⟩
      · intro e d h
        simp only at h ⊢
        by_cases he : e = g.elementEdges el li
        · rw [if_pos he] at h
          simp at h
          omega
        · rw [if_neg he] at h
          exact lt_trans (hv e d h) (by omega)
      · intro d h
        simp at h ⊢
        omega
    · rw [processSlot_interior_reuse g support ibd el li c ed o d2 ho hed]
      refine ⟨fun e d h => hv e d h, ?_⟩
      intro d h
      simp at h
      subst h
      exact hv _ _ hed

theorem processSlot_new_ids (g : Grid) (support : Nat → Bool) (ibd : Bool)
    (el : Nat) (li : Fin 3) (c : Nat) (ed : Nat → Option Nat) :
    ∀ d, d < (processSlot g support ibd el li c ed).count →
      d < c ∨ (processSlot g support ibd el li c ed).dof = some d := by
  rcases ho : otherNeighbor g support el (g.elementEdges el li) with _ | o
  · rw [processSlot_boundary g support ibd el li c ed ho]
    cases ibd
    · intro d h
      exact Or.inl h
    · intro d h
      simp at h
      rcases Nat.lt_succ_iff_lt_or_eq.mp h with h2 | h2
      · exact Or.inl h2
      · exact Or.inr (by simp [h2])
  · rcases hed : ed (g.elementEdges el li) with _ | d2
    · rw [processSlot_interior_alloc g support ibd el li c ed o ho hed]
      intro d h
      simp at h
      rcases Nat.lt_succ_iff_lt_or_eq.mp h with h2 | h2
      · exact Or.inl h2
      · exact Or.inr (by simp [h2])
    · rw [processSlot_interior_reuse g support ibd el li c ed o d2 ho hed]
      intro d h
      exact Or.inl h

theorem processSlot_ibd_true (g : Grid) (support : Nat → Bool)
    (el : Nat) (li : Fin 3) (c : Nat) (ed : Nat → Option Nat) :
    (processSlot g support true el li c ed).dof.isSome = true ∧
      ((processSlot g support true el li c ed).m = 1 ∨
        (processSlot g support true el li c ed).m = -1) := by
  rcases ho : otherNeighbor g support el (g.elementEdges el li) with _ | o
  · rw [processSlot_boundary g support true el li c ed ho]
    simp
  · rcases hed : ed (g.elementEdges el li) with _ | d2
    · rw [processSlot_interior_alloc g support true el li c ed o ho hed]
      by_cases hm : el = listMin (g.edgeNeighbors (g.elementEdges el li))
      · simp [if_pos hm]
      · simp [if_neg hm]
    · rw [processSlot_interior_reuse g support true el li c ed o d2 ho hed]
      by_cases hm : el = listMin (g.edgeNeighbors (g.elementEdges el li))
      · simp [if_pos hm]
      · simp [if_neg hm]

/-! ### Element-level lemmas -/

theorem elDofmap_zero (g : Grid) (support : Nat → Bool) (ibd : Bool) (el c : Nat)
    (ed : Nat → Option Nat) :
    elDofmap g support ibd el c ed 0 = (processSlot g support ibd el 0 c ed).dof := rfl

theorem elDofmap_one (g : Grid) (support : Nat → Bool) (ibd : Bool) (el c : Nat)
    (ed : Nat → Option Nat) :
    elDofmap g support ibd el c ed 1 =
      (processSlot g support ibd el 1 (res0 g support ibd el c ed).count
        (res0 g support ibd el c ed).edgeDofs).dof := rfl

theorem elDofmap_two (g : Grid) (support : Nat → Bool) (ibd : Bool) (el c : Nat)
    (ed : Nat → Option Nat) :
    elDofmap g support ibd el c ed 2 =
      (processSlot g support ibd el 2 (res1 g support ibd el c ed).count
        (res1 g support ibd el c ed).edgeDofs).dof := rfl

theorem elMultRow_zero (g : Grid) (support : Nat → Bool) (ibd : Bool) (el c : Nat)
    (ed : Nat → Option Nat) :
    elMultRow g support ibd el c ed 0 = (processSlot g support ibd el 0 c ed).m := rfl

theorem elMultRow_one (g : Grid) (support : Nat → Bool) (ibd : Bool) (el c : Nat)
    (ed : Nat → Option Nat) :
    elMultRow g support ibd el c ed 1 =
      (processSlot g support ibd el 1 (res0 g support ibd el c ed).count
        (res0 g support ibd el c ed).edgeDofs).m := rfl

theorem elMultRow_two (g : Grid) (support : Nat → Bool) (ibd : Bool) (el c : Nat)
    (ed : Nat → Option Nat) :
    elMultRow g support ibd el c ed 2 =
      (processSlot g support ibd el 2 (res1 g support ibd el c ed).count
        (res1 g support ibd el c ed).edgeDofs).m := rfl

theorem res2_edgeDofs_mono (g : Grid) (support : Nat → Bool) (ibd : Bool)
    (el c : Nat) (ed : Nat → Option Nat) (e d : Nat) (h : ed e = some d) :
    (res2 g support ibd el c ed).edgeDofs e = some d := by
  unfold res2
  apply processSlot_edgeDofs_mono
  unfold res1
  apply processSlot_edgeDofs_mono
  unfold res0
  exact processSlot_edgeDofs_mono _ _ _ _ _ _ _ _ _ h

theorem res2_count_le (g : Grid) (support : Nat → Bool) (ibd : Bool)
    (el c : Nat) (ed : Nat → Option Nat) :
    c ≤ (res2 g support ibd el c ed).count := by
  unfold res2
  refine le_trans ?_ (processSlot_count_le _ _ _ _ _ _ _)
  unfold res1
  refine le_trans ?_ (processSlot_count_le _ _ _ _ _ _ _)
  unfold res0
  exact processSlot_count_le _ _ _ _ _ _ _

theorem res1_count_le_res2 (g : Grid) (support : Nat → Bool) (ibd : Bool)
    (el c : Nat) (ed : Nat → Option Nat) :
    (res1 g support ibd el c ed).count ≤ (res2 g support ibd el c ed).count := by
  unfold res2
  exact processSlot_count_le _ _ _ _ _ _ _

theorem res0_count_le_res1 (g : Grid) (support : Nat → Bool) (ibd : Bool)
    (el c : Nat) (ed : Nat → Option Nat) :
    (res0 g support ibd el c ed).count ≤ (res1 g support ibd el c ed).count := by
  unfold res1
  exact processSlot_count_le _ _ _ _ _ _ _

theorem elDofmap_isSome_iff (g : Grid) (support : Nat → Bool) (ibd : Bool)
    (el c : Nat) (ed : Nat → Option Nat) (li : Fin 3) :
    (elDofmap g support ibd el c ed li).isSome = true ↔
      elMultRow g support ibd el c ed li ≠ 0 := by
  fin_cases li
  · show (elDofmap g support ibd el c ed 0).isSome = true ↔
      elMultRow g support ibd el c ed 0 ≠ 0
    rw [elDofmap_zero, elMultRow_zero]
    exact processSlot_dof_isSome_iff _ _ _ _ _ _ _
  · show (elDofmap g support ibd el c ed 1).isSome = true ↔
      elMultRow g support ibd el c ed 1 ≠ 0
    rw [elDofmap_one, elMultRow_one]
    exact processSlot_dof_isSome_iff _ _ _ _ _ _ _
  · show (elDofmap g support ibd el c ed 2).isSome = true ↔
      elMultRow g support ibd el c ed 2 ≠ 0
    rw [elDofmap_two, elMultRow_two]
    exact processSlot_dof_isSome_iff _ _ _ _ _ _ _

theorem el_interior_spec (g : Grid) (support : Nat → Bool) (ibd : Bool)
    (el c : Nat) (ed : Nat → Option Nat) (li : Fin 3) (o : Nat)
    (ho : otherNeighbor g support el (g.elementEdges el li) = some o) :
    ∃ d, elDofmap g support ibd el c ed li = some d ∧
      (res2 g support ibd el c ed).edgeDofs (g.elementEdges el li) = some d ∧
      elMultRow g support ibd el c ed li =
        (if el = listMin (g.edgeNeighbors (g.elementEdges el li)) then 1 else -1) := by
  fin_cases li
  · show ∃ d, elDofmap g support ibd el c ed 0 = some d ∧
      (res2 g support ibd el c ed).edgeDofs (g.elementEdges el 0) = some d ∧
      elMultRow g support ibd el c ed 0 =
        (if el = listMin (g.edgeNeighbors (g.elementEdges el 0)) then 1 else -1)
    obtain ⟨d, hdof, hed2, hm⟩ :=
      processSlot_interior_spec g support ibd el 0 c ed o ho
    refine ⟨d, ?_, ?_, ?_⟩
    · rw [elDofmap_zero]; exact hdof
    · unfold res2
      apply processSlot_edgeDofs_mono
      unfold res1
      apply processSlot_edgeDofs_mono
      exact hed2
    · rw [elMultRow_zero]; exact hm
  · show ∃ d, elDofmap g support ibd el c ed 1 = some d ∧
      (res2 g support ibd el c ed).edgeDofs (g.elementEdges el 1) = some d ∧
      elMultRow g support ibd el c ed 1 =
        (if el = listMin (g.edgeNeighbors (g.elementEdges el 1)) then 1 else -1)
    obtain ⟨d, hdof, hed2, hm⟩ :=
      processSlot_interior_spec g support ibd el 1 (res0 g support ibd el c ed).count
        (res0 g support ibd el c ed).edgeDofs o ho
    refine ⟨d, ?_, ?_, ?_⟩
    · rw [elDofmap_one]; exact hdof
    · unfold res2
      apply processSlot_edgeDofs_mono
      exact hed2
    · rw [elMultRow_one]; exact hm
  · show ∃ d, elDofmap g support ibd el c ed 2 = some d ∧
      (res2 g support ibd el c ed).edgeDofs (g.elementEdges el 2) = some d ∧
      elMultRow g support ibd el c ed 2 =
        (if el = listMin (g.edgeNeighbors (g.elementEdges el 2)) then 1 else -1)
    obtain ⟨d, hdof, hed2, hm⟩ :=
      processSlot_interior_spec g support ibd el 2 (res1 g support ibd el c ed).count
        (res1 g support ibd el c ed).edgeDofs o ho
    exact ⟨d, hdof, hed2, hm⟩

theorem elDeleted_eq_false (g : Grid) (support : Nat → Bool) (ibd : Bool)
    (el c : Nat) (ed : Nat → Option Nat) (li : Fin 3) (d : Nat)
    (h : elDofmap g support ibd el c ed li = some d) :
    elDeleted g support ibd el c ed = false := by
  unfold elDeleted
  fin_cases li
  · rw [show elDofmap g support ibd el c ed 0 = some d from h]
    simp
  · rw [show elDofmap g support ibd el c ed 1 = some d from h]
    simp
  · rw [show elDofmap g support ibd el c ed 2 = some d from h]
    simp

theorem elDeleted_all_none (g : Grid) (support : Nat → Bool) (ibd : Bool)
    (el c : Nat) (ed : Nat → Option Nat)
    (h : elDeleted g support ibd el c ed = true) :
    ∀ li : Fin 3, elDofmap g support ibd el c ed li = none := by
  unfold elDeleted at h
  simp only [Bool.and_eq_true, Option.isNone_iff_eq_none] at h
  intro li
  fin_cases li
  · exact h.1.1
  · exact h.1.2
  · exact h.2

theorem elDeleted_frozen (g : Grid) (support : Nat → Bool) (ibd : Bool)
    (el c : Nat) (ed : Nat → Option Nat)
    (h : elDeleted g support ibd el c ed = true) :
    (res2 g support ibd el c ed).count = c ∧
      (res2 g support ibd el c ed).edgeDofs = ed := by
  have h0 := elDeleted_all_none g support ibd el c ed h 0
  have h1 := elDeleted_all_none g support ibd el c ed h 1
  have h2 := elDeleted_all_none g support ibd el c ed h 2
  rw [elDofmap_zero] at h0
  rw [elDofmap_one] at h1
  rw [elDofmap_two] at h2
  have f2 := processSlot_none_frozen g support ibd el 2 _ _ h2
  have f1 := processSlot_none_frozen g support ibd el 1 _ _ h1
  have f0 := processSlot_none_frozen g support ibd el 0 _ _ h0
  have e2c : (res2 g support ibd el c ed).count = (res1 g support ibd el c ed).count :=
    f2.1
  have e2e : (res2 g support ibd el c ed).edgeDofs =
      (res1 g support ibd el c ed).edgeDofs := f2.2
  have e1c : (res1 g support ibd el c ed).count = (res0 g support ibd el c ed).count :=
    f1.1
  have e1e : (res1 g support ibd el c ed).edgeDofs =
      (res0 g support ibd el c ed).edgeDofs := f1.2
  have e0c : (res0 g support ibd el c ed).count = c := f0.1
  have e0e : (res0 g support ibd el c ed).edgeDofs = ed := f0.2
  exact ⟨by rw [e2c, e1c, e0c], by rw [e2e, e1e, e0e]⟩

/-! ### processElement and fold lemmas -/

theorem processElement_count (g : Grid) (support : Nat → Bool) (ibd : Bool)
    (s : AState) (el : Nat) :
    (processElement g support ibd s el).count =
      (res2 g support ibd el s.count s.edgeDofs).count := by
  unfold processElement
  split <;> rfl

theorem processElement_edgeDofs (g : Grid) (support : Nat → Bool) (ibd : Bool)
    (s : AState) (el : Nat) :
    (processElement g support ibd s el).edgeDofs =
      (res2 g support ibd el s.count s.edgeDofs).edgeDofs := by
  unfold processElement
  split <;> rfl

theorem processElement_count_le (g : Grid) (support : Nat → Bool) (ibd : Bool)
    (s : AState) (el : Nat) :
    s.count ≤ (processElement g support ibd s el).count := by
  rw [processElement_count]
  exact res2_count_le _ _ _ _ _ _

theorem processElement_edgeDofs_mono (g : Grid) (support : Nat → Bool) (ibd : Bool)
    (s : AState) (el e d : Nat) (h : s.edgeDofs e = some d) :
    (processElement g support ibd s el).edgeDofs e = some d := by
  rw [processElement_edgeDofs]
  exact res2_edgeDofs_mono _ _ _ _ _ _ _ _ h

theorem processElement_mult_other (g : Grid) (support : Nat → Bool) (ibd : Bool)
    (s : AState) (el e : Nat) (li : Fin 3) (hne : e ≠ el) :
    (processElement g support ibd s el).mult e li = s.mult e li := by
  unfold processElement
  split <;> simp [setRow, if_neg hne]

theorem processElement_l2g_other (g : Grid) (support : Nat → Bool) (ibd : Bool)
    (s : AState) (el e : Nat) (li : Fin 3) (hne : e ≠ el) :
    (processElement g support ibd s el).l2g e li = s.l2g e li := by
  unfold processElement
  split <;> simp [setRow, if_neg hne]

theorem processElement_deleted_mem (g : Grid) (support : Nat → Bool) (ibd : Bool)
    (s : AState) (el e : Nat) :
    e ∈ (processElement g support ibd s el).deleted ↔
      e ∈ s.deleted ∨
        (elDeleted g support ibd el s.count s.edgeDofs = true ∧ e = el) := by
  unfold processElement
  split
  · rename_i h
    simp [h, List.mem_append]
  · rename_i h
    simp [Bool.eq_false_iff.mpr h]

theorem processElement_rows_live (g : Grid) (support : Nat → Bool) (ibd : Bool)
    (s : AState) (el : Nat)
    (h : elDeleted g support ibd el s.count s.edgeDofs = false) :
    (∀ li, (processElement g support ibd s el).mult el li =
      elMultRow g support ibd el s.count s.edgeDofs li) ∧
    (∀ li, (processElement g support ibd s el).l2g el li =
      (elFilled g support ibd el s.count s.edgeDofs li).getD sentinel) ∧
    (processElement g support ibd s el).deleted = s.deleted := by
  unfold processElement
  rw [if_neg (by simp [h])]
  exact ⟨fun li => by simp [setRow], fun li => by simp [setRow], rfl⟩

theorem processElement_rows_dead (g : Grid) (support : Nat → Bool) (ibd : Bool)
    (s : AState) (el : Nat)
    (h : elDeleted g support ibd el s.count s.edgeDofs = true) :
    (∀ li, (processElement g support ibd s el).mult el li = 0) ∧
    (∀ li, (processElement g support ibd s el).l2g el li = 0) ∧
    (processElement g support ibd s el).deleted = s.deleted ++ [el] := by
  unfold processElement
  rw [if_pos h]
  exact ⟨fun li => by simp [setRow], fun li => by simp [setRow], rfl⟩

theorem foldl_edgeDofs_mono (g : Grid) (support : Nat → Bool) (ibd : Bool) :
    ∀ (l : List Nat) (s : AState) (e d : Nat), s.edgeDofs e = some d →
      ((l.foldl (processElement g support ibd) s).edgeDofs e = some d)
  | [], s, e, d, h => h
  | a :: l, s, e, d, h => by
      rw [List.foldl_cons]
      exact foldl_edgeDofs_mono g support ibd l _ e d
        (processElement_edgeDofs_mono g support ibd s a e d h)

theorem foldl_count_le (g : Grid) (support : Nat → Bool) (ibd : Bool) :
    ∀ (l : List Nat) (s : AState),
      s.count ≤ (l.foldl (processElement g support ibd) s).count
  | [], s => le_refl _
  | a :: l, s => by
      rw [List.foldl_cons]
      exact le_trans (processElement_count_le g support ibd s a)
        (foldl_count_le g support ibd l _)

theorem foldl_rows_of_not_mem (g : Grid) (support : Nat → Bool) (ibd : Bool) :
    ∀ (l : List Nat) (s : AState) (el : Nat), el ∉ l →
      (∀ li, (l.foldl (processElement g support ibd) s).mult el li = s.mult el li) ∧
      (∀ li, (l.foldl (processElement g support ibd) s).l2g el li = s.l2g el li) ∧
      ((el ∈ (l.foldl (processElement g support ibd) s).deleted) ↔ el ∈ s.deleted)
  | [], s, el, _ => ⟨fun _ => rfl, fun _ => rfl, Iff.rfl⟩
  | a :: l, s, el, h => by
      have hna : el ≠ a := fun he => h (he ▸ List.mem_cons_self a l)
      have hnl : el ∉ l := fun he => h (List.mem_cons_of_mem a he)
      rw [List.foldl_cons]
      obtain ⟨h1, h2, h3⟩ := foldl_rows_of_not_mem g support ibd l
        (processElement g support ibd s a) el hnl
      refine ⟨?_, ?_, ?_⟩
      · intro li
        rw [h1 li, processElement_mult_other g support ibd s a el li hna]
      · intro li
        rw [h2 li, processElement_l2g_other g support ibd s a el li hna]
      · rw [h3, processElement_deleted_mem]
        constructor
        · rintro (hd | ⟨_, he⟩)
          · exact hd
          · exact absurd he hna
        · exact Or.inl

theorem foldl_invariant (g : Grid) (support : Nat → Bool) (ibd : Bool)
    (P : AState → Prop) :
    ∀ (l : List Nat) (s : AState),
      (∀ t e, e ∈ l → P t → P (processElement g support ibd t e)) → P s →
      P (l.foldl (processElement g support ibd) s)
  | [], s, _, hP => hP
  | a :: l, s, hpres, hP => by
      rw [List.foldl_cons]
      exact foldl_invariant g support ibd P l _
        (fun t e he => hpres t e (List.mem_cons_of_mem a he))
        (hpres s a (List.mem_cons_self a l) hP)

theorem foldl_row_determ (g : Grid) (support : Nat → Bool) (ibd : Bool)
    (P : AState → Prop) :
    ∀ (l : List Nat) (el : Nat), l.Nodup → el ∈ l →
      ∀ (s : AState), P s →
      (∀ t e, e ∈ l → e ≠ el → P t → P (processElement g support ibd t e)) →
      ∃ s', P s' ∧
        (∀ li, (l.foldl (processElement g support ibd) s).mult el li =
          (processElement g support ibd s' el).mult el li) ∧
        (∀ li, (l.foldl (processElement g support ibd) s).l2g el li =
          (processElement g support ibd s' el).l2g el li) ∧
        ((el ∈ (l.foldl (processElement g support ibd) s).deleted) ↔
          (el ∈ (processElement g support ibd s' el).deleted)) ∧
        (∀ e d, (processElement g support ibd s' el).edgeDofs e = some d →
          (l.foldl (processElement g support ibd) s).edgeDofs e = some d) ∧
        (processElement g support ibd s' el).count ≤
          (l.foldl (processElement g support ibd) s).count
  | [], el, _, hel, _, _, _ => absurd hel (List.not_mem_nil el)
  | a :: l, el, hnd, hel, s, hP, hpres => by
      rw [List.foldl_cons]
      by_cases he : el = a
      · subst he
        have hnl : el ∉ l := (List.nodup_cons.mp hnd).1
        obtain ⟨h1, h2, h3⟩ := foldl_rows_of_not_mem g support ibd l
          (processElement g support ibd s el) el hnl
        exact ⟨s, hP, h1, h2, h3,
          fun e d h => foldl_edgeDofs_mono g support ibd l _ e d h,
          foldl_count_le g support ibd l _⟩
      · have hel' : el ∈ l := by
          rcases List.mem_cons.mp hel with h | h
          · exact absurd h he
          · exact h
        exact foldl_row_determ g support ibd P l el (List.nodup_cons.mp hnd).2 hel'
          (processElement g support ibd s a)
          (hpres s a (List.mem_cons_self a l) (fun h => he h.symm) hP)
          (fun t e hem hne => hpres t e (List.mem_cons_of_mem a hem) hne)

/-! ### Helpers for the claim theorems -/

theorem mem_elementsInSupport (g : Grid) (support : Nat → Bool) (el : Nat) :
    el ∈ elementsInSupport g support ↔
      el < g.numElements ∧ support el = true := by
  simp [elementsInSupport, List.mem_filter, List.mem_range]

theorem nodup_elementsInSupport (g : Grid) (support : Nat → Bool) :
    (elementsInSupport g support).Nodup :=
  (List.nodup_range g.numElements).filter _

theorem runAssign_eq_foldl (g : Grid) (support : Nat → Bool) (ibd : Bool) :
    runAssign g support ibd =
      (elementsInSupport g support).foldl (processElement g support ibd)
        initState := rfl

theorem finalSupport_true_iff (g : Grid) (support : Nat → Bool) (ibd : Bool)
    (e : Nat) :
    finalSupport g support ibd e = true ↔
      support e = true ∧ e ∉ (runAssign g support ibd).deleted := by
  unfold finalSupport
  by_cases h : e ∈ (runAssign g support ibd).deleted
  · rw [if_pos h]
    simp [h]
  · rw [if_neg h]
    simp [h]

theorem firstNonzeroIdx_spec (row : Fin 3 → Int) (h : ∃ li, row li ≠ 0) :
    row (firstNonzeroIdx row) ≠ 0 ∧
      ∀ li : Fin 3, li < firstNonzeroIdx row → row li = 0 := by
  unfold firstNonzeroIdx
  by_cases h0 : row 0 ≠ 0
  · rw [if_pos h0]
    refine ⟨h0, fun li hlt => ?_⟩
    exact absurd hlt (by omega)
  · rw [if_neg h0]
    push_neg at h0
    by_cases h1 : row 1 ≠ 0
    · rw [if_pos h1]
      refine ⟨h1, fun li hlt => ?_⟩
      have : li = 0 := by omega
      rw [this, h0]
    · rw [if_neg h1]
      push_neg at h1
      obtain ⟨li, hli⟩ := h
      have h2 : row 2 ≠ 0 := by
        fin_cases li
        · exact absurd (by exact h0) hli
        · exact absurd (by exact h1) hli
        · exact fun hc => hli (by exact hc)
      refine ⟨h2, fun li' hlt => ?_⟩
      have : li' = 0 ∨ li' = 1 := by omega
      rcases this with h' | h'
      · rw [h', h0]
      · rw [h', h1]

theorem elDeleted_false_exists (g : Grid) (support : Nat → Bool) (ibd : Bool)
    (el c : Nat) (ed : Nat → Option Nat)
    (h : elDeleted g support ibd el c ed = false) :
    ∃ li : Fin 3, elMultRow g support ibd el c ed li ≠ 0 := by
  by_contra hall
  push_neg at hall
  have hnone : ∀ li : Fin 3, (elDofmap g support ibd el c ed li).isNone = true := by
    intro li
    have hiff := elDofmap_isSome_iff g support ibd el c ed li
    rcases hopt : elDofmap g support ibd el c ed li with _ | d
    · rfl
    · exact absurd (hall li) (by
        have : (elDofmap g support ibd el c ed li).isSome = true := by
          rw [hopt]; rfl
        exact hiff.mp this)
  unfold elDeleted at h
  rw [hnone 0, hnone 1, hnone 2] at h
  simp at h

theorem elDeleted_ibd_true_false (g : Grid) (support : Nat → Bool)
    (el c : Nat) (ed : Nat → Option Nat) :
    elDeleted g support true el c ed = false := by
  have h0 := (processSlot_ibd_true g support el 0 c ed).1
  rw [Option.isSome_iff_exists] at h0
  obtain ⟨d, hd⟩ := h0
  exact elDeleted_eq_false g support true el c ed 0 d
    (by rw [elDofmap_zero]; exact hd)

theorem list_len_two {l : List Nat} (h : l.length = 2) : ∃ a b, l = [a, b] := by
  match l with
  | [] => simp at h
  | [a] => simp at h
  | [a, b] => exact ⟨a, b, rfl⟩
  | a :: b :: c :: rest => simp at h

/-- C2: an edge shared by two elements, both in the final support, with
both multipliers nonzero, references the same global DOF id in both
elements and carries +1 in the element with the smaller index and -1 in
the other. -/
theorem claim2_shared_edge_signs (g : Grid) (support : Nat → Bool) (ibd : Bool)
    (edge a b : Nat) (la lb : Fin 3)
    (hne : a ≠ b) (ha : a < g.numElements) (hb : b < g.numElements)
    (hnbrs : g.edgeNeighbors edge = [a, b])
    (hea : g.elementEdges a la = edge) (heb : g.elementEdges b lb = edge)
    (hfa : finalSupport g support ibd a = true)
    (hfb : finalSupport g support ibd b = true)
    (hma : (runAssign g support ibd).mult a la ≠ 0)
    (hmb : (runAssign g support ibd).mult b lb ≠ 0) :
    (runAssign g support ibd).l2g a la = (runAssign g support ibd).l2g b lb ∧
    (a < b → (runAssign g support ibd).mult a la = 1 ∧
      (runAssign g support ibd).mult b lb = -1) ∧
    (b < a → (runAssign g support ibd).mult b lb = 1 ∧
      (runAssign g support ibd).mult a la = -1) := by
  have hsa : support a = true := ((finalSupport_true_iff g support ibd a).mp hfa).1
  have hsb : support b = true := ((finalSupport_true_iff g support ibd b).mp hfb).1
  have hmem_a : a ∈ elementsInSupport g support :=
    (mem_elementsInSupport g support a).mpr ⟨ha, hsa⟩
  have hmem_b : b ∈ elementsInSupport g support :=
    (mem_elementsInSupport g support b).mpr ⟨hb, hsb⟩
  have hoa : otherNeighbor g support a edge = some b := by
    unfold otherNeighbor
    rw [hnbrs]
    simp [hsb]
  have hob : otherNeighbor g support b edge = some a := by
    unfold otherNeighbor
    rw [hnbrs]
    simp [Ne.symm hne, hsa]
  have hmin : listMin (g.edgeNeighbors edge) = min a b := by
    rw [hnbrs]
    rfl
  obtain ⟨sa, _, hmultA, hl2gA, _, hpushA, _⟩ :=
    foldl_row_determ g support ibd (fun _ => True) (elementsInSupport g support)
      a (nodup_elementsInSupport g support) hmem_a initState trivial
      (fun _ _ _ _ _ => trivial)
  obtain ⟨sb, _, hmultB, hl2gB, _, hpushB, _⟩ :=
    foldl_row_determ g support ibd (fun _ => True) (elementsInSupport g support)
      b (nodup_elementsInSupport g support) hmem_b initState trivial
      (fun _ _ _ _ _ => trivial)
  obtain ⟨da, hdofA, hedA, hmA⟩ := el_interior_spec g support ibd a sa.count
    sa.edgeDofs la b (by rw [hea]; exact hoa)
  obtain ⟨db, hdofB, hedB, hmB⟩ := el_interior_spec g support ibd b sb.count
    sb.edgeDofs lb a (by rw [heb]; exact hob)
  have hdelA := elDeleted_eq_false g support ibd a sa.count sa.edgeDofs la da hdofA
  have hdelB := elDeleted_eq_false g support ibd b sb.count sb.edgeDofs lb db hdofB
  obtain ⟨hmla, hl2a, _⟩ := processElement_rows_live g support ibd sa a hdelA
  obtain ⟨hmlb, hl2b, _⟩ := processElement_rows_live g support ibd sb b hdelB
  have hmna : elMultRow g support ibd a sa.count sa.edgeDofs la ≠ 0 :=
    (elDofmap_isSome_iff g support ibd a sa.count sa.edgeDofs la).mp
      (by rw [hdofA]; rfl)
  have hmnb : elMultRow g support ibd b sb.count sb.edgeDofs lb ≠ 0 :=
    (elDofmap_isSome_iff g support ibd b sb.count sb.edgeDofs lb).mp
      (by rw [hdofB]; rfl)
  have hl2gA' : (runAssign g support ibd).l2g a la = da := by
    rw [runAssign_eq_foldl, hl2gA la, hl2a la]
    unfold elFilled
    rw [if_neg hmna, hdofA]
    rfl
  have hl2gB' : (runAssign g support ibd).l2g b lb = db := by
    rw [runAssign_eq_foldl, hl2gB lb, hl2b lb]
    unfold elFilled
    rw [if_neg hmnb, hdofB]
    rfl
  have hfinA : (runAssign g support ibd).edgeDofs edge = some da := by
    rw [runAssign_eq_foldl]
    apply hpushA
    rw [processElement_edgeDofs]
    rw [hea] at hedA
    exact hedA
  have hfinB : (runAssign g support ibd).edgeDofs edge = some db := by
    rw [runAssign_eq_foldl]
    apply hpushB
    rw [processElement_edgeDofs]
    rw [heb] at hedB
    exact hedB
  have hdd : da = db := Option.some.inj (hfinA.symm.trans hfinB)
  have hmvA : (runAssign g support ibd).mult a la =
      (if a = min a b then 1 else -1) := by
    rw [runAssign_eq_foldl, hmultA la, hmla la, hmA, hea, hmin]
  have hmvB : (runAssign g support ibd).mult b lb =
      (if b = min a b then 1 else -1) := by
    rw [runAssign_eq_foldl, hmultB lb, hmlb lb, hmB, heb, hmin]
  refine ⟨by rw [hl2gA', hl2gB', hdd], ?_, ?_⟩
  · intro hab
    constructor
    · rw [hmvA, if_pos (by omega)]
    · rw [hmvB, if_neg (by omega)]
  · intro hba
    constructor
    · rw [hmvB, if_pos (by omega)]
    · rw [hmvA, if_neg (by omega)]

/-- Witness for C2 on the tetrahedron: edge 0 is shared by elements 0 and
1; both carry DOF 0, with multiplier +1 in element 0 and -1 in element 1. -/
theorem claim2_witness :
    (runAssign tetraGrid (fun _ => true) false).l2g 0 0 =
      (runAssign tetraGrid (fun _ => true) false).l2g 1 0 ∧
    ((0 : Nat) < 1 → (runAssign tetraGrid (fun _ => true) false).mult 0 0 = 1 ∧
      (runAssign tetraGrid (fun _ => true) false).mult 1 0 = -1) ∧
    ((1 : Nat) < 0 → (runAssign tetraGrid (fun _ => true) false).mult 1 0 = 1 ∧
      (runAssign tetraGrid (fun _ => true) false).mult 0 0 = -1) :=
  claim2_shared_edge_signs tetraGrid (fun _ => true) false 0 0 1 0 0
    (by decide) (by decide) (by decide) (by decide) (by decide) (by decide)
    (by decide) (by decide) (by decide) (by decide)

/-- C9: with `include_boundary_dofs = true` no element is ever removed from
the support, and every local slot of every supported element gets a nonzero
multiplier (+1 or -1). -/
theorem claim9_include_boundary_keeps_all (g : Grid) (support : Nat → Bool) :
    (runAssign g support true).deleted = [] ∧
    (∀ e, finalSupport g support true e = support e) ∧
    (∀ el, el < g.numElements → support el = true →
      ∀ li : Fin 3, (runAssign g support true).mult el li = 1 ∨
        (runAssign g support true).mult el li = -1) := by
  have hdel : (runAssign g support true).deleted = [] := by
    rw [runAssign_eq_foldl]
    have := foldl_invariant g support true (fun s => s.deleted = [])
      (elementsInSupport g support) initState
      (fun t e _ ht => by
        show (processElement g support true t e).deleted = []
        rw [(processElement_rows_live g support true t e
          (elDeleted_ibd_true_false g support e t.count t.edgeDofs)).2.2]
        exact ht)
      rfl
    exact this
  refine ⟨hdel, ?_, ?_⟩
  · intro e
    unfold finalSupport
    rw [hdel]
    simp
  · intro el hel hsup li
    obtain ⟨s', _, hmult, _, _, _, _⟩ :=
      foldl_row_determ g support true (fun _ => True) (elementsInSupport g support)
        el (nodup_elementsInSupport g support)
        ((mem_elementsInSupport g support el).mpr ⟨hel, hsup⟩) initState trivial
        (fun _ _ _ _ _ => trivial)
    rw [runAssign_eq_foldl, hmult li,
      (processElement_rows_live g support true s' el
        (elDeleted_ibd_true_false g support el s'.count s'.edgeDofs)).1 li]
    fin_cases li
    · show elMultRow g support true el s'.count s'.edgeDofs 0 = 1 ∨
        elMultRow g support true el s'.count s'.edgeDofs 0 = -1
      rw [elMultRow_zero]
      exact (processSlot_ibd_true g support el 0 s'.count s'.edgeDofs).2
    · show elMultRow g support true el s'.count s'.edgeDofs 1 = 1 ∨
        elMultRow g support true el s'.count s'.edgeDofs 1 = -1
      rw [elMultRow_one]
      exact (processSlot_ibd_true g support el 1 _ _).2
    · show elMultRow g support true el s'.count s'.edgeDofs 2 = 1 ∨
        elMultRow g support true el s'.count s'.edgeDofs 2 = -1
      rw [elMultRow_two]
      exact (processSlot_ibd_true g support el 2 _ _).2

/-- Witness for C9 on the two-triangle grid: the final support equals the
input support and slot 1 of element 0 (a boundary edge) has multiplier 1. -/
theorem claim9_witness :
    ((runAssign twoTriGrid (fun _ => true) true).mult 0 1 = 1 ∨
      (runAssign twoTriGrid (fun _ => true) true).mult 0 1 = -1) :=
  (claim9_include_boundary_keeps_all twoTriGrid (fun _ => true)).2.2 0 (by decide)
    (by decide) 1

/-- C6: construction fails with the empty-support error exactly when the
support is empty after removal of the all-zero-multiplier elements; in
particular a single isolated triangle with `include_boundary_dofs = false`
fails, and construction succeeds whenever the final support is non-empty. -/
theorem claim6_empty_support_error :
    (∀ (g : Grid) (support : Nat → Bool) (ibd : Bool),
      (supportSize g support ibd = 0 →
        rwg0Init g support ibd =
          Except.error "The support of the function space is empty.") ∧
      (supportSize g support ibd ≠ 0 → (rwg0Init g support ibd).isOk = true)) ∧
    rwg0Init oneTriGrid (fun _ => true) false =
      Except.error "The support of the function space is empty." := by
  have main : ∀ (g : Grid) (support : Nat → Bool) (ibd : Bool),
      (supportSize g support ibd = 0 →
        rwg0Init g support ibd =
          Except.error "The support of the function space is empty.") ∧
      (supportSize g support ibd ≠ 0 → (rwg0Init g support ibd).isOk = true) := by
    intro g support ibd
    constructor
    · intro h
      unfold rwg0Init
      rw [if_pos h]
    · intro h
      unfold rwg0Init
      rw [if_neg h]
      rfl
  exact ⟨main, (main oneTriGrid (fun _ => true) false).1 (by decide)⟩

/-- C4: after DOF assignment, every element in the final support has a
nonzero multiplier; every element whose three multipliers are all zero is
out of the final support with its local record zeroed; and in every
final-support element each zero-multiplier slot's global DOF id equals the
id of the lowest-indexed nonzero-multiplier slot, so no sentinel id
appears. -/
theorem claim4_support_and_fill (g : Grid) (support : Nat → Bool) (ibd : Bool)
    (el : Nat) (hel : el < g.numElements) :
    (finalSupport g support ibd el = true →
      ∃ li : Fin 3, (runAssign g support ibd).mult el li ≠ 0) ∧
    ((∀ li : Fin 3, (runAssign g support ibd).mult el li = 0) →
      finalSupport g support ibd el = false ∧
      ∀ li : Fin 3, (runAssign g support ibd).l2g el li = 0) ∧
    (finalSupport g support ibd el = true →
      ∃ li0 : Fin 3, (runAssign g support ibd).mult el li0 ≠ 0 ∧
        (∀ li' : Fin 3, li' < li0 → (runAssign g support ibd).mult el li' = 0) ∧
        (∀ li : Fin 3, (runAssign g support ibd).mult el li = 0 →
          (runAssign g support ibd).l2g el li =
            (runAssign g support ibd).l2g el li0)) := by
  by_cases hsup : support el = true
  · obtain ⟨s', _, hmult, hl2g, hdmem, _, _⟩ :=
      foldl_row_determ g support ibd (fun _ => True) (elementsInSupport g support)
        el (nodup_elementsInSupport g support)
        ((mem_elementsInSupport g support el).mpr ⟨hel, hsup⟩) initState trivial
        (fun _ _ _ _ _ => trivial)
    by_cases hdel : elDeleted g support ibd el s'.count s'.edgeDofs = true
    · obtain ⟨hm0, hlz0, hdl⟩ := processElement_rows_dead g support ibd s' el hdel
      have hmz : ∀ li : Fin 3, (runAssign g support ibd).mult el li = 0 := by
        intro li
        rw [runAssign_eq_foldl, hmult li, hm0 li]
      have hfin : finalSupport g support ibd el = false := by
        rcases hff : finalSupport g support ibd el with _ | _
        · rfl
        · exfalso
          have := ((finalSupport_true_iff g support ibd el).mp hff).2
          apply this
          rw [runAssign_eq_foldl]
          rw [hdmem, hdl]
          simp
      refine ⟨?_, ?_, ?_⟩
      · intro hff
        rw [hff] at hfin
        simp at hfin
      · intro _
        refine ⟨hfin, fun li => ?_⟩
        rw [runAssign_eq_foldl, hl2g li, hlz0 li]
      · intro hff
        rw [hff] at hfin
        simp at hfin
    · have hdel' : elDeleted g support ibd el s'.count s'.edgeDofs = false :=
        Bool.eq_false_iff.mpr hdel
      obtain ⟨hml, hl2, hdl⟩ := processElement_rows_live g support ibd s' el hdel'
      obtain ⟨lnz, hlnz⟩ :=
        elDeleted_false_exists g support ibd el s'.count s'.edgeDofs hdel'
      have hmeq : ∀ li : Fin 3, (runAssign g support ibd).mult el li =
          elMultRow g support ibd el s'.count s'.edgeDofs li := by
        intro li
        rw [runAssign_eq_foldl, hmult li, hml li]
      have hleq : ∀ li : Fin 3, (runAssign g support ibd).l2g el li =
          (elFilled g support ibd el s'.count s'.edgeDofs li).getD sentinel := by
        intro li
        rw [runAssign_eq_foldl, hl2g li, hl2 li]
      obtain ⟨hnz0, hlow⟩ := firstNonzeroIdx_spec
        (elMultRow g support ibd el s'.count s'.edgeDofs) ⟨lnz, hlnz⟩
      refine ⟨fun _ => ⟨lnz, by rw [hmeq]; exact hlnz⟩, ?_, ?_⟩
      · intro hz
        exact absurd (by rw [← hmeq lnz]; exact hz lnz) hlnz
      · intro _
        refine ⟨firstNonzeroIdx (elMultRow g support ibd el s'.count s'.edgeDofs),
          by rw [hmeq]; exact hnz0, fun li' hlt => by rw [hmeq]; exact hlow li' hlt,
          ?_⟩
        intro li hz
        rw [hmeq li] at hz
        rw [hleq li, hleq (firstNonzeroIdx (elMultRow g support ibd el s'.count
          s'.edgeDofs))]
        unfold elFilled
        rw [if_pos hz, if_neg hnz0]
  · have hsf : support el = false := Bool.eq_false_iff.mpr hsup
    have hnm : el ∉ elementsInSupport g support := by
      intro hmem
      rw [(mem_elementsInSupport g support el).mp hmem |>.2] at hsf
      simp at hsf
    obtain ⟨hmult, hl2g, hdmem⟩ := foldl_rows_of_not_mem g support ibd
      (elementsInSupport g support) initState el hnm
    have hfin : finalSupport g support ibd el = false := by
      rcases hff : finalSupport g support ibd el with _ | _
      · rfl
      · exact absurd ((finalSupport_true_iff g support ibd el).mp hff).1
          (by rw [hsf]; simp)
    refine ⟨?_, ?_, ?_⟩
    · intro hff
      rw [hff] at hfin
      simp at hfin
    · intro _
      refine ⟨hfin, fun li => ?_⟩
      rw [runAssign_eq_foldl, hl2g li]
      rfl
    · intro hff
      rw [hff] at hfin
      simp at hfin

/-- Witness for C4 on the two-triangle grid: element 0 is in the final
support and its zero-multiplier slots alias the DOF of slot 2. -/
theorem claim4_witness :
    (finalSupport twoTriGrid (fun _ => true) false 0 = true →
      ∃ li : Fin 3, (runAssign twoTriGrid (fun _ => true) false).mult 0 li ≠ 0) ∧
    ((∀ li : Fin 3, (runAssign twoTriGrid (fun _ => true) false).mult 0 li = 0) →
      finalSupport twoTriGrid (fun _ => true) false 0 = false ∧
      ∀ li : Fin 3, (runAssign twoTriGrid (fun _ => true) false).l2g 0 li = 0) ∧
    (finalSupport twoTriGrid (fun _ => true) false 0 = true →
      ∃ li0 : Fin 3, (runAssign twoTriGrid (fun _ => true) false).mult 0 li0 ≠ 0 ∧
        (∀ li' : Fin 3, li' < li0 →
          (runAssign twoTriGrid (fun _ => true) false).mult 0 li' = 0) ∧
        (∀ li : Fin 3, (runAssign twoTriGrid (fun _ => true) false).mult 0 li = 0 →
          (runAssign twoTriGrid (fun _ => true) false).l2g 0 li =
            (runAssign twoTriGrid (fun _ => true) false).l2g 0 li0)) :=
  claim4_support_and_fill twoTriGrid (fun _ => true) false 0 (by decide)

/-! ### Allocation counting for closed meshes (C5) -/

theorem processSlot_count_card (g : Grid) (support : Nat → Bool)
    (el : Nat) (li : Fin 3) (c : Nat) (ed : Nat → Option Nat)
    (hedge : g.elementEdges el li < g.numEdges)
    (hc : c = ((Finset.range g.numEdges).filter
      (fun e => (ed e).isSome = true)).card)
    (hbound : ∀ e, (ed e).isSome = true → e < g.numEdges) :
    (processSlot g support false el li c ed).count =
      ((Finset.range g.numEdges).filter (fun e =>
        ((processSlot g support false el li c ed).edgeDofs e).isSome = true)).card ∧
    (∀ e, ((processSlot g support false el li c ed).edgeDofs e).isSome = true →
      e < g.numEdges) := by
  rcases ho : otherNeighbor g support el (g.elementEdges el li) with _ | o
  · rw [processSlot_boundary g support false el li c ed ho]
    exact ⟨hc, hbound⟩
  · rcases hed : ed (g.elementEdges el li) with _ | d2
    · rw [processSlot_interior_alloc g support false el li c ed o ho hed]
      have hset : (Finset.range g.numEdges).filter (fun e =>
            ((if e = g.elementEdges el li then some c else ed e)).isSome = true)
          = insert (g.elementEdges el li)
            ((Finset.range g.numEdges).filter (fun e => (ed e).isSome = true)) := by
        ext e
        by_cases he : e = g.elementEdges el li
        · subst he
          simp [hedge]
        · simp [Finset.mem_filter, Finset.mem_insert, Finset.mem_range, he,
            if_neg he]
      have hnm : g.elementEdges el li ∉
          (Finset.range g.numEdges).filter (fun e => (ed e).isSome = true) := by
        intro hmem
        have := (Finset.mem_filter.mp hmem).2
        rw [hed] at this
        simp at this
      constructor
      · show c + 1 = _
        rw [hset, Finset.card_insert_of_not_mem hnm, hc]
      · intro e he
        by_cases heq : e = g.elementEdges el li
        · rw [heq]; exact hedge
        · apply hbound
          simpa [if_neg heq] using he
    · rw [processSlot_interior_reuse g support false el li c ed o d2 ho hed]
      exact ⟨hc, hbound⟩

theorem res2_count_card (g : Grid) (support : Nat → Bool) (el c : Nat)
    (ed : Nat → Option Nat)
    (hedges : ∀ li : Fin 3, g.elementEdges el li < g.numEdges)
    (hc : c = ((Finset.range g.numEdges).filter
      (fun e => (ed e).isSome = true)).card)
    (hbound : ∀ e, (ed e).isSome = true → e < g.numEdges) :
    (res2 g support false el c ed).count =
      ((Finset.range g.numEdges).filter (fun e =>
        ((res2 g support false el c ed).edgeDofs e).isSome = true)).card ∧
    (∀ e, ((res2 g support false el c ed).edgeDofs e).isSome = true →
      e < g.numEdges) := by
  obtain ⟨h0c, h0b⟩ :=
    processSlot_count_card g support el 0 c ed (hedges 0) hc hbound
  obtain ⟨h1c, h1b⟩ :=
    processSlot_count_card g support el 1 (res0 g support false el c ed).count
      (res0 g support false el c ed).edgeDofs (hedges 1) h0c h0b
  obtain ⟨h2c, h2b⟩ :=
    processSlot_count_card g support el 2 (res1 g support false el c ed).count
      (res1 g support false el c ed).edgeDofs (hedges 2) h1c h1b
  exact ⟨h2c, h2b⟩

theorem processElement_count_card (g : Grid) (support : Nat → Bool)
    (s : AState) (el : Nat)
    (hedges : ∀ li : Fin 3, g.elementEdges el li < g.numEdges)
    (hc : s.count = ((Finset.range g.numEdges).filter
      (fun e => (s.edgeDofs e).isSome = true)).card)
    (hbound : ∀ e, (s.edgeDofs e).isSome = true → e < g.numEdges) :
    (processElement g support false s el).count =
      ((Finset.range g.numEdges).filter (fun e =>
        ((processElement g support false s el).edgeDofs e).isSome = true)).card ∧
    (∀ e, ((processElement g support false s el).edgeDofs e).isSome = true →
      e < g.numEdges) := by
  rw [processElement_count, processElement_edgeDofs]
  exact res2_count_card g support el s.count s.edgeDofs hedges hc hbound

theorem runAssign_covers (g : Grid) (support : Nat → Bool) (ibd : Bool)
    (edge n0 n1 : Nat) (li : Fin 3)
    (hn0 : n0 < g.numElements) (hs0 : support n0 = true)
    (hs1 : support n1 = true)
    (hnn : g.edgeNeighbors edge = [n0, n1])
    (heq : g.elementEdges n0 li = edge) :
    ((runAssign g support ibd).edgeDofs edge).isSome = true := by
  have hmem : n0 ∈ elementsInSupport g support :=
    (mem_elementsInSupport g support n0).mpr ⟨hn0, hs0⟩
  have ho : otherNeighbor g support n0 edge = some n1 := by
    unfold otherNeighbor
    rw [hnn]
    simp [hs1]
  obtain ⟨s', _, _, _, _, hpush, _⟩ :=
    foldl_row_determ g support ibd (fun _ => True) (elementsInSupport g support)
      n0 (nodup_elementsInSupport g support) hmem initState trivial
      (fun _ _ _ _ _ => trivial)
  obtain ⟨d, _, hed2, _⟩ := el_interior_spec g support ibd n0 s'.count
    s'.edgeDofs li n1 (by rw [heq]; exact ho)
  have : (runAssign g support ibd).edgeDofs edge = some d := by
    rw [runAssign_eq_foldl]
    apply hpush
    rw [processElement_edgeDofs]
    rw [heq] at hed2
    exact hed2
  rw [this]
  rfl

/-- C5: on a grid in which every edge has exactly two adjacent elements (a
closed mesh, each adjacent element listing that edge among its own and
lying in the grid), DOF assignment with full support and
`include_boundary_dofs = false` allocates one global DOF per edge: the
global DOF count equals the number of edges and every edge's DOF is
allocated. -/
theorem claim5_closed_mesh_dof_count (g : Grid) (support : Nat → Bool)
    (hsup : ∀ e, e < g.numElements → support e = true)
    (hlen : ∀ ed, ed < g.numEdges → (g.edgeNeighbors ed).length = 2)
    (hnb : ∀ ed, ed < g.numEdges → ∀ el ∈ g.edgeNeighbors ed,
      el < g.numElements ∧ ∃ li : Fin 3, g.elementEdges el li = ed)
    (hee : ∀ el, el < g.numElements → ∀ li : Fin 3,
      g.elementEdges el li < g.numEdges) :
    globalDofCount g support false = g.numEdges ∧
    ∀ ed, ed < g.numEdges →
      ((runAssign g support false).edgeDofs ed).isSome = true := by
  have hcover : ∀ ed, ed < g.numEdges →
      ((runAssign g support false).edgeDofs ed).isSome = true := by
    intro ed hed
    obtain ⟨n0, n1, hnn⟩ := list_len_two (hlen ed hed)
    have hm0 : n0 ∈ g.edgeNeighbors ed := by rw [hnn]; simp
    have hm1 : n1 ∈ g.edgeNeighbors ed := by rw [hnn]; simp
    obtain ⟨hn0lt, li, heq⟩ := hnb ed hed n0 hm0
    have hn1lt : n1 < g.numElements := (hnb ed hed n1 hm1).1
    exact runAssign_covers g support false ed n0 n1 li hn0lt (hsup n0 hn0lt)
      (hsup n1 hn1lt) hnn heq
  have hinv : (runAssign g support false).count =
      ((Finset.range g.numEdges).filter (fun e =>
        (((runAssign g support false).edgeDofs e)).isSome = true)).card ∧
      (∀ e, ((runAssign g support false).edgeDofs e).isSome = true →
        e < g.numEdges) := by
    rw [runAssign_eq_foldl]
    refine foldl_invariant g support false (fun s =>
      s.count = ((Finset.range g.numEdges).filter (fun e =>
        ((s.edgeDofs e)).isSome = true)).card ∧
      (∀ e, ((s.edgeDofs e)).isSome = true → e < g.numEdges))
      (elementsInSupport g support) initState ?_ ?_
    · intro t e he ⟨htc, htb⟩
      have helt : e < g.numElements :=
        ((mem_elementsInSupport g support e).mp he).1
      exact processElement_count_card g support t e (hee e helt) htc htb
    · constructor
      · show 0 = _
        rw [Finset.filter_false_of_mem]
        · rfl
        · intro e _
          show ¬((none : Option Nat).isSome = true)
          simp
      · intro e he
        exact absurd he (by simp [initState])
  have hfull : (Finset.range g.numEdges).filter (fun e =>
      (((runAssign g support false).edgeDofs e)).isSome = true)
      = Finset.range g.numEdges := by
    apply Finset.filter_true_of_mem
    intro e he
    exact hcover e (Finset.mem_range.mp he)
  refine ⟨?_, hcover⟩
  show (runAssign g support false).count = g.numEdges
  rw [hinv.1, hfull, Finset.card_range]

/-- Witness for C5: the tetrahedral surface has 6 edges and gets exactly 6
global DOFs. -/
theorem claim5_witness :
    globalDofCount tetraGrid (fun _ => true) false = tetraGrid.numEdges ∧
    ∀ ed, ed < tetraGrid.numEdges →
      ((runAssign tetraGrid (fun _ => true) false).edgeDofs ed).isSome = true :=
  claim5_closed_mesh_dof_count tetraGrid (fun _ => true) (by decide) (by decide)
    (by decide) (by decide)

/-! ### DOF id range lemmas (C10) -/

theorem res2_val_inv (g : Grid) (support : Nat → Bool) (ibd : Bool) (el c : Nat)
    (ed : Nat → Option Nat) (hv : ∀ e d, ed e = some d → d < c) :
    ∀ e d, (res2 g support ibd el c ed).edgeDofs e = some d →
      d < (res2 g support ibd el c ed).count := by
  have h0 := processSlot_val_bound g support ibd el 0 c ed hv
  have h1 := processSlot_val_bound g support ibd el 1
    (res0 g support ibd el c ed).count (res0 g support ibd el c ed).edgeDofs h0.1
  have h2 := processSlot_val_bound g support ibd el 2
    (res1 g support ibd el c ed).count (res1 g support ibd el c ed).edgeDofs h1.1
  exact h2.1

theorem elDofmap_val_bound (g : Grid) (support : Nat → Bool) (ibd : Bool)
    (el c : Nat) (ed : Nat → Option Nat)
    (hv : ∀ e d, ed e = some d → d < c) (li : Fin 3) (d : Nat)
    (h : elDofmap g support ibd el c ed li = some d) :
    d < (res2 g support ibd el c ed).count := by
  have h0 := processSlot_val_bound g support ibd el 0 c ed hv
  have h1 := processSlot_val_bound g support ibd el 1
    (res0 g support ibd el c ed).count (res0 g support ibd el c ed).edgeDofs h0.1
  have h2 := processSlot_val_bound g support ibd el 2
    (res1 g support ibd el c ed).count (res1 g support ibd el c ed).edgeDofs h1.1
  fin_cases li
  · have h' : (processSlot g support ibd el 0 c ed).dof = some d := h
    exact lt_of_lt_of_le (h0.2 d h')
      (le_trans (res0_count_le_res1 g support ibd el c ed)
        (res1_count_le_res2 g support ibd el c ed))
  · have h' : (processSlot g support ibd el 1 (res0 g support ibd el c ed).count
        (res0 g support ibd el c ed).edgeDofs).dof = some d := h
    exact lt_of_lt_of_le (h1.2 d h') (res1_count_le_res2 g support ibd el c ed)
  · have h' : (processSlot g support ibd el 2 (res1 g support ibd el c ed).count
        (res1 g support ibd el c ed).edgeDofs).dof = some d := h
    exact h2.2 d h'

theorem processElement_val_inv (g : Grid) (support : Nat → Bool) (ibd : Bool)
    (s : AState) (el : Nat)
    (hv : ∀ e d, s.edgeDofs e = some d → d < s.count) :
    ∀ e d, (processElement g support ibd s el).edgeDofs e = some d →
      d < (processElement g support ibd s el).count := by
  rw [processElement_count, processElement_edgeDofs]
  exact res2_val_inv g support ibd el s.count s.edgeDofs hv

theorem el_new_ids (g : Grid) (support : Nat → Bool) (ibd : Bool) (el c : Nat)
    (ed : Nat → Option Nat) :
    ∀ d, d < (res2 g support ibd el c ed).count →
      d < c ∨ ∃ li : Fin 3, elDofmap g support ibd el c ed li = some d := by
  intro d h
  rcases processSlot_new_ids g support ibd el 2
    (res1 g support ibd el c ed).count (res1 g support ibd el c ed).edgeDofs d h
    with h2 | h2
  · rcases processSlot_new_ids g support ibd el 1
      (res0 g support ibd el c ed).count (res0 g support ibd el c ed).edgeDofs d h2
      with h1 | h1
    · rcases processSlot_new_ids g support ibd el 0 c ed d h1 with h0 | h0
      · exact Or.inl h0
      · exact Or.inr ⟨0, by rw [elDofmap_zero]; exact h0⟩
    · exact Or.inr ⟨1, by rw [elDofmap_one]; exact h1⟩
  · exact Or.inr ⟨2, by rw [elDofmap_two]; exact h2⟩

theorem foldl_surj (g : Grid) (support : Nat → Bool) (ibd : Bool) :
    ∀ (l : List Nat) (s : AState), l.Nodup →
      (∀ e ∈ l, support e = true ∧ e < g.numElements) →
      (∀ e ∈ l, (∀ li : Fin 3, s.mult e li = 0) ∧ e ∉ s.deleted) →
      (∀ d, d < s.count → ∃ el, ∃ li : Fin 3, s.mult el li ≠ 0 ∧
        s.l2g el li = d ∧ el ∉ s.deleted ∧ support el = true ∧
        el < g.numElements) →
      ∀ d, d < (l.foldl (processElement g support ibd) s).count →
        ∃ el, ∃ li : Fin 3,
          (l.foldl (processElement g support ibd) s).mult el li ≠ 0 ∧
          (l.foldl (processElement g support ibd) s).l2g el li = d ∧
          el ∉ (l.foldl (processElement g support ibd) s).deleted ∧
          support el = true ∧ el < g.numElements
  | [], s, _, _, _, hsurj, d, hd => hsurj d hd
  | a :: l, s, hnd, hbounds, hzero, hsurj, d, hd => by
      rw [List.foldl_cons] at hd ⊢
      have hanl : a ∉ l := (List.nodup_cons.mp hnd).1
      refine foldl_surj g support ibd l (processElement g support ibd s a)
        (List.nodup_cons.mp hnd).2
        (fun e he => hbounds e (List.mem_cons_of_mem a he)) ?_ ?_ d hd
      · intro e he
        have hne : e ≠ a := fun hh => hanl (hh ▸ he)
        obtain ⟨hez, hed⟩ := hzero e (List.mem_cons_of_mem a he)
        refine ⟨fun li => ?_, ?_⟩
        · rw [processElement_mult_other g support ibd s a e li hne]
          exact hez li
        · rw [processElement_deleted_mem]
          rintro (hc | ⟨_, hc⟩)
          · exact hed hc
          · exact hne hc
      · intro d' hd'
        rw [processElement_count] at hd'
        rcases el_new_ids g support ibd a s.count s.edgeDofs d' hd' with ho | ho
        · obtain ⟨el', li, hm, hl, hdel, hsupel, hlt⟩ := hsurj d' ho
          have hne : el' ≠ a := by
            intro hh
            subst hh
            exact hm ((hzero el' (List.mem_cons_self el' l)).1 li)
          refine ⟨el', li, ?_, ?_, ?_, hsupel, hlt⟩
          · rw [processElement_mult_other g support ibd s a el' li hne]
            exact hm
          · rw [processElement_l2g_other g support ibd s a el' li hne]
            exact hl
          · rw [processElement_deleted_mem]
            rintro (hc | ⟨_, hc⟩)
            · exact hdel hc
            · exact hne hc
        · obtain ⟨li, hdof⟩ := ho
          have hdelF := elDeleted_eq_false g support ibd a s.count s.edgeDofs li
            d' hdof
          obtain ⟨hml, hl2, hdl⟩ := processElement_rows_live g support ibd s a hdelF
          have hmn : elMultRow g support ibd a s.count s.edgeDofs li ≠ 0 :=
            (elDofmap_isSome_iff g support ibd a s.count s.edgeDofs li).mp
              (by rw [hdof]; rfl)
          obtain ⟨hsa, halt⟩ := hbounds a (List.mem_cons_self a l)
          refine ⟨a, li, ?_, ?_, ?_, hsa, halt⟩
          · rw [hml li]
            exact hmn
          · rw [hl2 li]
            unfold elFilled
            rw [if_neg hmn, hdof]
            rfl
          · rw [hdl]
            exact (hzero a (List.mem_cons_self a l)).2

/-- C10: every local-to-global entry of a final-support element is strictly
below the global DOF count, and every id below the count is hit by some
nonzero-multiplier slot of a final-support element — the allocated ids are
exactly 0..count-1. -/
theorem claim10_contiguous_dof_ids (g : Grid) (support : Nat → Bool) (ibd : Bool) :
    (∀ el, el < g.numElements → finalSupport g support ibd el = true →
      ∀ li : Fin 3, (runAssign g support ibd).l2g el li <
        globalDofCount g support ibd) ∧
    (∀ d, d < globalDofCount g support ibd →
      ∃ el, ∃ li : Fin 3, finalSupport g support ibd el = true ∧
        (runAssign g support ibd).l2g el li = d ∧
        (runAssign g support ibd).mult el li ≠ 0) := by
  constructor
  · intro el hel hfin li
    obtain ⟨hsup, hnotdel⟩ := (finalSupport_true_iff g support ibd el).mp hfin
    obtain ⟨s', hval, hmult, hl2g, hdmem, hpush, hcount⟩ :=
      foldl_row_determ g support ibd
        (fun s => ∀ e d, s.edgeDofs e = some d → d < s.count)
        (elementsInSupport g support) el (nodup_elementsInSupport g support)
        ((mem_elementsInSupport g support el).mpr ⟨hel, hsup⟩) initState
        (fun e d h => absurd h (by simp [initState]))
        (fun t e _ _ hv => processElement_val_inv g support ibd t e hv)
    have hdelF : elDeleted g support ibd el s'.count s'.edgeDofs = false := by
      rcases hdd : elDeleted g support ibd el s'.count s'.edgeDofs with _ | _
      · rfl
      · exfalso
        apply hnotdel
        rw [runAssign_eq_foldl]
        rw [hdmem, (processElement_rows_dead g support ibd s' el hdd).2.2]
        simp
    obtain ⟨hml, hl2, _⟩ := processElement_rows_live g support ibd s' el hdelF
    have hfincnt : (res2 g support ibd el s'.count s'.edgeDofs).count ≤
        globalDofCount g support ibd := by
      show _ ≤ (runAssign g support ibd).count
      rw [runAssign_eq_foldl]
      rw [← processElement_count g support ibd s' el]
      exact hcount
    have hlval : ∀ li2 : Fin 3,
        elMultRow g support ibd el s'.count s'.edgeDofs li2 ≠ 0 →
        ∃ dd, elDofmap g support ibd el s'.count s'.edgeDofs li2 = some dd ∧
          dd < globalDofCount g support ibd := by
      intro li2 hnz
      have hsome := (elDofmap_isSome_iff g support ibd el s'.count
        s'.edgeDofs li2).mpr hnz
      obtain ⟨dd, hdd⟩ := Option.isSome_iff_exists.mp hsome
      exact ⟨dd, hdd, lt_of_lt_of_le
        (elDofmap_val_bound g support ibd el s'.count s'.edgeDofs hval li2 dd hdd)
        hfincnt⟩
    rw [runAssign_eq_foldl, hl2g li, hl2 li]
    unfold elFilled
    by_cases hz : elMultRow g support ibd el s'.count s'.edgeDofs li = 0
    · rw [if_pos hz]
      obtain ⟨lnz, hlnz⟩ :=
        elDeleted_false_exists g support ibd el s'.count s'.edgeDofs hdelF
      obtain ⟨hnz0, _⟩ := firstNonzeroIdx_spec
        (elMultRow g support ibd el s'.count s'.edgeDofs) ⟨lnz, hlnz⟩
      obtain ⟨dd, hdd, hddlt⟩ := hlval _ hnz0
      rw [hdd]
      exact hddlt
    · rw [if_neg hz]
      obtain ⟨dd, hdd, hddlt⟩ := hlval li hz
      rw [hdd]
      exact hddlt
  · intro d hd
    obtain ⟨el, li, hm, hl, hdel, hsup, _⟩ :=
      foldl_surj g support ibd (elementsInSupport g support) initState
        (nodup_elementsInSupport g support)
        (fun e he => ⟨((mem_elementsInSupport g support e).mp he).2,
          ((mem_elementsInSupport g support e).mp he).1⟩)
        (fun e _ => ⟨fun _ => rfl, by simp [initState]⟩)
        (fun d' hd' => absurd hd' (by simp [initState]))
        d (by rw [← runAssign_eq_foldl]; exact hd)
    rw [← runAssign_eq_foldl] at hm hl hdel
    exact ⟨el, li, (finalSupport_true_iff g support ibd el).mpr ⟨hsup, hdel⟩,
      hl, hm⟩

/-- Witness for C10 on the tetrahedron: slot 0 of element 0 carries an id
below the global DOF count 6. -/
theorem claim10_witness :
    (runAssign tetraGrid (fun _ => true) false).l2g 0 0 <
      globalDofCount tetraGrid (fun _ => true) false :=
  (claim10_contiguous_dof_ids tetraGrid (fun _ => true) false).1 0 (by decide)
    (by decide) 0
